import Mathlib

/-!
# SimplePTZ: VISCA command encoding and reply framing

A shallow embedding of the protocol core of `src/mainwindow.cpp`
(`MainWindow`): the command builders (`ptzPressed`, `ptzReleased`,
`zoomInPressed`, `zoomOutPressed`, `zoomReleased`, `sendRecallPreset`,
`sendStorePreset`, `sendRefocus`, `viscaPower*`), the transmit path
(`sendVisca`, `appendTx`), the receive path (`onSerialReadyRead`,
`processIncomingFrames`, `appendRx`, `setPowerUi`), the connection lifecycle
(`connectOrDisconnect`, `switchProfile`, `onSerialError`, `setConnectedUi`),
the power toggle and the custom command list (`powerToggle`,
`execSelectedCommand`).

Conventions of the embedding:

* a `QByteArray` is a `List Nat` of octets (every element below 256);
* a C++ `int` is an `Int`; the conversion `char(x)` is `toByte`, reduction
  modulo 256; buffer sizes are assumed to fit an `int`, so `end + 1` does not wrap;
* a `QString` is a `String`;
* the widgets the core reads or writes are fields of the `MainWindow` record:
  the three speed sliders hold their current `value()`, the power label and
  button hold their text, and the response view `rxView` holds its lines;
* the serial port is a record of its open flag and of the byte arrays
  handed to `write`, oldest first;
* the frame loop also returns the frames it cut off, in order, so that
  statements can speak about them; `readChunks` strings several reads together.
-/

namespace SimplePTZ

/-! ## Data model -/

/-- The enumeration `PowerState` of `mainwindow.h`. -/
inductive PowerState where
  | Unknown
  | On
  | Off
  deriving DecidableEq, Repr

/-- The member `QSerialPort serial`: whether the port is open, and every byte
array passed to `serial.write`, oldest first. -/
structure SerialPort where
  isOpen : Bool := false
  written : List (List Nat) := []
  deriving DecidableEq, Repr

/-- The members of `MainWindow` that the protocol core reads or writes.
`rxView` is a pointer in the source; `none` is the null pointer and
`some lines` the lines of the view. `portCombo` is the current text of the
port selector, `cmdIndex` the current index of `cmdCombo`, and
`controlsEnabled` the enabled flag that `setConnectedUi` gives to the thirteen
buttons and to `cmdCombo`. The defaults are the values the members have after
the constructor ran (the port selector then shows what the port enumeration
found, here nothing). -/
structure MainWindow where
  serial : SerialPort := {}
  rxBuf : List Nat := []
  powerState : PowerState := PowerState.Unknown
  powerLabel : String := "Power: Unknown"
  powerButton : String := "Power On"
  panSpeed : Int := 12
  tiltSpeed : Int := 10
  zoomSpeed : Int := 3
  rxView : Option (List String) := some []
  connectButton : String := "Connect"
  portCombo : String := ""
  portComboEnabled : Bool := true
  controlsEnabled : Bool := false
  cmdIndex : Int := 0
  currentProfile : String := "Default"
  deriving DecidableEq, Repr

/-! ## Library operations used by the core -/

/-- The conversion `char(x)` of an `int`, read back as an unsigned octet. -/
def toByte (x : Int) : Nat := (x % 256).toNat

/-- The function `std::clamp(v, lo, hi)`. -/
def clamp (v lo hi : Int) : Int :=
  if v < lo then lo else if hi < v then hi else v

/-- Value of one hexadecimal digit, `none` for any other character. -/
def hexVal (c : Char) : Option Nat :=
  if '0' ≤ c ∧ c ≤ '9' then some (c.toNat - 48)
  else if 'a' ≤ c ∧ c ≤ 'f' then some (c.toNat - 87)
  else if 'A' ≤ c ∧ c ≤ 'F' then some (c.toNat - 55)
  else none

/-- Pairs hexadecimal digits given last digit first: each pair is one octet,
low nibble first; a single remaining digit is an octet of its own. -/
def pairNibbles : List Nat → List Nat
  | [] => []
  | [lo] => [lo]
  | lo :: hi :: rest => (hi * 16 + lo) :: pairNibbles rest

/-- The function `QByteArray::fromHex`: characters that are not hexadecimal
digits are skipped and the digits are paired starting from the end. -/
def fromHex (hex : String) : List Nat :=
  (pairNibbles (hex.data.filterMap hexVal).reverse).reverse

/-- `QByteArray::indexOf(c)`: position of the first occurrence of `c`, or `-1`. -/
def indexOf (b : List Nat) (c : Nat) : Int :=
  if List.indexOf c b < b.length then (List.indexOf c b : Int) else -1

/-- `QByteArray::left(len)`: the first `len` bytes (all of them when `len`
exceeds the size). -/
def left (b : List Nat) (len : Int) : List Nat := b.take len.toNat

/-- `QByteArray::remove(pos, len)`: the array without the `len` bytes that
start at `pos`. -/
def remove (b : List Nat) (pos len : Int) : List Nat :=
  b.take pos.toNat ++ b.drop (pos.toNat + len.toNat)

/-- `QString::trimmed`: white space removed from both ends. -/
def trimmed (s : String) : String :=
  String.mk ((s.data.dropWhile Char.isWhitespace).reverse.dropWhile Char.isWhitespace).reverse

/-- `QString("%1 ").arg(b, 2, 16, QLatin1Char('0')).toUpper()`: `b` in base 16,
padded with `'0'` to a field of width 2, followed by one space, in upper case. -/
def hexField (b : Nat) : String :=
  let digits := Nat.toDigits 16 b
  String.mk ((List.replicate (2 - digits.length) '0' ++ digits ++ [' ']).map Char.toUpper)

/-! ## Logging and transmit path -/

/-- `MainWindow::toHexSpaced`. -/
def toHexSpaced (bytes : List Nat) : String :=
  trimmed (bytes.foldl (fun s b => s ++ hexField b) "")

/-- `rxView->appendPlainText(line)`, behind the null check of the callers. -/
def appendPlainText (s : MainWindow) (line : String) : MainWindow :=
  match s.rxView with
  | none => s
  | some ls => { s with rxView := some (ls ++ [line]) }

/-- `MainWindow::appendTx`. -/
def appendTx (s : MainWindow) (bytes : List Nat) : MainWindow :=
  appendPlainText s ("TX: " ++ toHexSpaced bytes)

/-- `MainWindow::appendRx`. -/
def appendRx (s : MainWindow) (bytes : List Nat) (note : String) : MainWindow :=
  if note.isEmpty then appendPlainText s ("RX: " ++ toHexSpaced bytes)
  else appendPlainText s ("RX: " ++ toHexSpaced bytes ++ "    // " ++ note)

/-- `MainWindow::sendVisca`: nothing happens on a closed port; on an open one
the bytes are logged and written. -/
def sendVisca (s : MainWindow) (bytes : List Nat) : MainWindow :=
  if !s.serial.isOpen then s
  else
    let s1 := appendTx s bytes
    { s1 with serial := { s1.serial with written := s1.serial.written ++ [bytes] } }

/-! ## Pan/tilt -/

/-- `MainWindow::ptzPressed`. -/
def ptzPressed (s : MainWindow) (dx dy : Int) : MainWindow :=
  if !s.serial.isOpen then s
  else
    let pan := clamp s.panSpeed 1 24
    let tilt := clamp s.tiltSpeed 1 20
    let panDir : Int := if dx < 0 then 0x01 else (if dx > 0 then 0x02 else 0x03)
    let tiltDir : Int := if dy < 0 then 0x01 else (if dy > 0 then 0x02 else 0x03)
    sendVisca s [toByte 0x81, toByte 0x01, toByte 0x06, toByte 0x01,
      toByte pan, toByte tilt, toByte panDir, toByte tiltDir, toByte 0xFF]

/-- `MainWindow::ptzReleased`. -/
def ptzReleased (s : MainWindow) : MainWindow :=
  if !s.serial.isOpen then s
  else
    sendVisca s [toByte 0x81, toByte 0x01, toByte 0x06, toByte 0x01,
      toByte (clamp s.panSpeed 1 24), toByte (clamp s.tiltSpeed 1 20),
      toByte 0x03, toByte 0x03, toByte 0xFF]

/-! ## Zoom and refocus -/

/-- `MainWindow::zoomInPressed`; `op` is the `quint8` holding `0x20 | p`. -/
def zoomInPressed (s : MainWindow) : MainWindow :=
  if !s.serial.isOpen then s
  else
    let p := clamp s.zoomSpeed 0 7
    let op : Int := Int.lor 0x20 p % 256
    sendVisca s [toByte 0x81, toByte 0x01, toByte 0x04, toByte 0x07, toByte op, toByte 0xFF]

/-- `MainWindow::zoomOutPressed`; `op` is the `quint8` holding `0x30 | p`. -/
def zoomOutPressed (s : MainWindow) : MainWindow :=
  if !s.serial.isOpen then s
  else
    let p := clamp s.zoomSpeed 0 7
    let op : Int := Int.lor 0x30 p % 256
    sendVisca s [toByte 0x81, toByte 0x01, toByte 0x04, toByte 0x07, toByte op, toByte 0xFF]

/-- `MainWindow::zoomReleased`. -/
def zoomReleased (s : MainWindow) : MainWindow :=
  if !s.serial.isOpen then s
  else
    sendVisca s [toByte 0x81, toByte 0x01, toByte 0x04, toByte 0x07, toByte 0x00, toByte 0xFF]

/-- `MainWindow::sendRefocus`. -/
def sendRefocus (s : MainWindow) : MainWindow :=
  if !s.serial.isOpen then s
  else sendVisca s (fromHex "8101041801FF")

/-! ## Presets -/

/-- `MainWindow::sendRecallPreset`. -/
def sendRecallPreset (s : MainWindow) (n : Int) : MainWindow :=
  if n < 0 ∨ n > 15 then s
  else
    sendVisca s [toByte 0x81, toByte 0x01, toByte 0x04, toByte 0x3F, toByte 0x02,
      toByte n, toByte 0xFF]

/-- `MainWindow::sendStorePreset`. -/
def sendStorePreset (s : MainWindow) (n : Int) : MainWindow :=
  if n < 0 ∨ n > 15 then s
  else
    sendVisca s [toByte 0x81, toByte 0x01, toByte 0x04, toByte 0x3F, toByte 0x01,
      toByte n, toByte 0xFF]

/-! ## Power -/

/-- `MainWindow::viscaPowerInquiry`. -/
def viscaPowerInquiry (s : MainWindow) : MainWindow :=
  sendVisca s (fromHex "81090400FF")

/-- `MainWindow::viscaPowerOn`. -/
def viscaPowerOn (s : MainWindow) : MainWindow :=
  sendVisca s (fromHex "8101040002FF")

/-- `MainWindow::viscaPowerOff`. -/
def viscaPowerOff (s : MainWindow) : MainWindow :=
  sendVisca s (fromHex "8101040003FF")

/-- `MainWindow::setPowerUi`. -/
def setPowerUi (s : MainWindow) (p : PowerState) : MainWindow :=
  match p with
  | PowerState.On =>
      { s with powerState := p, powerLabel := "Power: On", powerButton := "Power Off" }
  | PowerState.Off =>
      { s with powerState := p, powerLabel := "Power: Off", powerButton := "Power On" }
  | PowerState.Unknown =>
      { s with powerState := p, powerLabel := "Power: Unknown", powerButton := "Power On" }

/-! ## Receive path -/

/-- The octet `quint8(frame[i])`; every use is guarded by a size check. -/
def byteAt (frame : List Nat) (i : Nat) : Nat := frame.getD i 0

/-- The reply classification inside the loop of `processIncomingFrames`
(the block between the declaration of `note` and the call of `appendRx`):
the state after the possible `setPowerUi`, and the value of `note`. -/
def classifyFrame (s : MainWindow) (frame : List Nat) : MainWindow × String :=
  if frame.length ≥ 4 ∧ byteAt frame 0 = 0x90 ∧ byteAt frame 1 = 0x50 then
    if byteAt frame 2 = 0x02 then (setPowerUi s PowerState.On, "power=On")
    else if byteAt frame 2 = 0x03 then (setPowerUi s PowerState.Off, "power=Off")
    else (s, "")
  else (s, "")

/-- What one iteration of the loop of `processIncomingFrames` does with the
frame it has cut off: classification, then `appendRx(frame, note)`. -/
def handleFrame (s : MainWindow) (frame : List Nat) : MainWindow :=
  appendRx (classifyFrame s frame).1 frame (classifyFrame s frame).2

/-- `MainWindow::processIncomingFrames`. The loop is a recursion on the state;
the first component of the result records the value of the local `frame` of
each iteration, in order, and the second is the state when the loop is left. -/
def processIncomingFrames (s : MainWindow) : List (List Nat) × MainWindow :=
  let e := indexOf s.rxBuf 0xFF
  if h : e < 0 then ([], s)
  else
    let frame := left s.rxBuf (e + 1)
    let s1 : MainWindow := { s with rxBuf := remove s.rxBuf 0 (e + 1) }
    let r := processIncomingFrames (handleFrame s1 frame)
    (frame :: r.1, r.2)
termination_by s.rxBuf.length
decreasing_by
  have hview : ∀ (u : MainWindow) (line : String), (appendPlainText u line).rxBuf = u.rxBuf := by
    intro u line
    unfold appendPlainText
    cases u.rxView <;> rfl
  have hpower : ∀ (u : MainWindow) (p : PowerState), (setPowerUi u p).rxBuf = u.rxBuf := by
    intro u p
    cases p <;> rfl
  have hkeep : (handleFrame s1 frame).rxBuf = remove s.rxBuf 0 (e + 1) := by
    unfold handleFrame appendRx classifyFrame
    split_ifs <;> simp [hview, hpower, s1]
  have hpos : 0 < s.rxBuf.length := by
    apply List.length_pos.mpr
    intro hb
    apply h
    show indexOf s.rxBuf 0xFF < 0
    rw [hb]
    decide
  have hcut : 1 ≤ (e + 1).toNat := by omega
  rw [hkeep]
  simp only [remove, Int.toNat_zero, List.take_zero, List.nil_append, Nat.zero_add,
    List.length_drop]
  omega

/-- `MainWindow::onSerialReadyRead`; `data` is what `serial.readAll()` returns.
The first component is the list of frames the frame loop cut off. -/
def onSerialReadyRead (s : MainWindow) (data : List Nat) : List (List Nat) × MainWindow :=
  processIncomingFrames { s with rxBuf := s.rxBuf ++ data }

/-- A session of reads: `onSerialReadyRead` runs once per chunk the port
delivers, in order; the frames of all the runs are collected in order. -/
def readChunks (s : MainWindow) : List (List Nat) → List (List Nat) × MainWindow
  | [] => ([], s)
  | chunk :: chunks =>
      ((onSerialReadyRead s chunk).1 ++ (readChunks (onSerialReadyRead s chunk).2 chunks).1,
        (readChunks (onSerialReadyRead s chunk).2 chunks).2)

/-! ## Connection lifecycle

The settings store, the preset list and the port enumeration are outside the
core; what they deliver to it (the stored speeds of a profile, the text the
port selector shows afterwards, whether `serial.open` succeeds, the answer to
a message box) is a parameter of the operation. Signals are delivered as
separate steps. -/

/-- `MainWindow::setConnectedUi`. -/
def setConnectedUi (s : MainWindow) (connected : Bool) : MainWindow :=
  { s with
    connectButton := if connected then "Disconnect" else "Connect",
    portComboEnabled := !connected,
    controlsEnabled := connected }

/-- `MainWindow::connectOrDisconnect`; `openOk` tells whether
`serial.open(QIODevice::ReadWrite)` succeeds. -/
def connectOrDisconnect (s : MainWindow) (openOk : Bool) : MainWindow :=
  if s.serial.isOpen then
    let s1 : MainWindow := { s with serial := { s.serial with isOpen := false } }
    let s2 := setConnectedUi s1 false
    let s3 : MainWindow := { s2 with powerLabel := "Power: Unknown", powerButton := "Power On" }
    appendPlainText s3 "--- Disconnected ---"
  else
    let sel := s.portCombo
    if sel.isEmpty then s
    else if !openOk then s
    else
      let s1 : MainWindow := { s with serial := { s.serial with isOpen := true } }
      let s2 := setConnectedUi s1 true
      let s3 := appendPlainText s2 ("--- Connected " ++ sel ++ " ---")
      viscaPowerInquiry s3

/-- `MainWindow::loadProfileSettings`, as far as the core sees it: the three
sliders take the stored values (`QSlider::setValue` bounds them by the range
of the slider) and the port selector shows `port` afterwards. -/
def loadProfileSettings (s : MainWindow) (pan tilt zoom : Int) (port : String) : MainWindow :=
  { s with
    panSpeed := clamp pan 1 24,
    tiltSpeed := clamp tilt 1 20,
    zoomSpeed := clamp zoom 0 7,
    portCombo := port }

/-- `MainWindow::switchProfile`; `pan`, `tilt`, `zoom` and `port` are what the
settings store holds for the new profile. -/
def switchProfile (s : MainWindow) (profile : String) (pan tilt zoom : Int) (port : String) :
    MainWindow :=
  if profile.isEmpty ∨ profile = s.currentProfile then s
  else
    let s1 : MainWindow :=
      if s.serial.isOpen then
        let c1 : MainWindow := { s with serial := { s.serial with isOpen := false } }
        let c2 := setConnectedUi c1 false
        let c3 : MainWindow :=
          { c2 with powerLabel := "Power: Unknown", powerButton := "Power On" }
        appendPlainText c3 "--- Disconnected (profile switch) ---"
      else s
    let s2 : MainWindow := { s1 with currentProfile := profile }
    loadProfileSettings s2 pan tilt zoom port

/-- The values of `QSerialPort::SerialPortError`. -/
inductive SerialPortError where
  | NoError
  | DeviceNotFoundError
  | PermissionError
  | OpenError
  | WriteError
  | ReadError
  | ResourceError
  | UnsupportedOperationError
  | UnknownError
  | TimeoutError
  | NotOpenError
  deriving DecidableEq, Repr

/-- `MainWindow::onSerialError`; `port` is the text the port selector shows
after `refreshPorts`. -/
def onSerialError (s : MainWindow) (err : SerialPortError) (port : String) : MainWindow :=
  if err = SerialPortError.NoError then s
  else
    let s1 : MainWindow :=
      if s.serial.isOpen then { s with serial := { s.serial with isOpen := false } } else s
    let s2 := setConnectedUi s1 false
    let s3 : MainWindow := { s2 with powerLabel := "Power: Unknown", powerButton := "Power On" }
    let s4 : MainWindow := { s3 with portCombo := port }
    appendPlainText s4 "--- Serial error, disconnected ---"

/-! ## Power toggle and custom commands -/

/-- `QString::contains(sub, Qt::CaseInsensitive)`, for texts in ASCII. -/
def containsCaseInsensitive (text sub : String) : Bool :=
  (text.data.map Char.toLower).tails.any
    (fun rest => (sub.data.map Char.toLower).isPrefixOf rest)

/-- `MainWindow::powerToggle`; `confirm` tells whether the operator answers
`Yes` to the question "Confirm Power Off". -/
def powerToggle (s : MainWindow) (confirm : Bool) : MainWindow :=
  if !s.serial.isOpen then s
  else
    let currentlyOn := containsCaseInsensitive s.powerButton "Off"
    if currentlyOn then
      if confirm then setPowerUi (viscaPowerOff s) PowerState.Off
      else s
    else setPowerUi (viscaPowerOn s) PowerState.On

/-- The items `buildUi` gives to `cmdCombo` through `addCmd`: label and user
data. Nothing else adds, removes or changes an item. -/
def cmdComboItems : List (String × List Nat) :=
  [("Power Inquiry — report ON/OFF (81 09 04 00 FF)", fromHex "81090400FF"),
   ("Pan/Tilt Home — center position (81 01 06 04 FF)", fromHex "81010604FF"),
   ("AF One-Push — refocus (81 01 04 18 01 FF)", fromHex "8101041801FF"),
   ("Focus Auto ON (81 01 04 38 02 FF)", fromHex "8101043802FF"),
   ("Focus Auto OFF / Manual (81 01 04 38 03 FF)", fromHex "8101043803FF")]

/-- `cmdCombo->itemData(idx, Qt::UserRole).toByteArray()`: the data of the item,
and the empty array for an index that names no item. -/
def itemData (idx : Int) : List Nat :=
  if idx < 0 then []
  else ((cmdComboItems.get? idx.toNat).map Prod.snd).getD []

/-- `MainWindow::execSelectedCommand`. -/
def execSelectedCommand (s : MainWindow) : MainWindow :=
  if !s.serial.isOpen then s
  else
    let idx := s.cmdIndex
    if idx < 0 then s
    else
      let cmd := itemData idx
      if cmd.isEmpty then s
      else sendVisca s cmd

/-! ## Preset list slots

The preset list is outside the core; the row it reports, and what the operator
picks in its context menu, are parameters. -/

/-- `MainWindow::onPresetDoubleClicked`; `currentRow` is `presetList->currentRow()`
when the list has a current item, and `none` when it has none. -/
def onPresetDoubleClicked (s : MainWindow) (currentRow : Option Int) : MainWindow :=
  if !s.serial.isOpen then s
  else
    match currentRow with
    | some row => sendRecallPreset s row
    | none => s

/-- What the operator picks in the context menu of the preset list. -/
inductive PresetMenuChoice where
  | rename
  | store
  | dismissed
  deriving DecidableEq, Repr

/-- `MainWindow::renamePresetRequested`; `row` is the row of the item under the
pointer, `none` when there is no item there, and `chosen` the action picked.
Renaming edits the preset list only. -/
def renamePresetRequested (s : MainWindow) (row : Option Int) (chosen : PresetMenuChoice) :
    MainWindow :=
  match row with
  | none => s
  | some r =>
    match chosen with
    | PresetMenuChoice.rename => s
    | PresetMenuChoice.store =>
        if !s.serial.isOpen then s
        else sendStorePreset s r
    | PresetMenuChoice.dismissed => s

/-! ## The operator intents that can reach the transport -/

/-- The slots and helpers of `MainWindow` that can end in `sendVisca`, with
their arguments. -/
inductive Intent where
  | powerInquiry
  | powerOn
  | powerOff
  | powerToggle (confirm : Bool)
  | ptzPressed (dx dy : Int)
  | ptzReleased
  | zoomInPressed
  | zoomOutPressed
  | zoomReleased
  | recallPreset (n : Int)
  | storePreset (n : Int)
  | refocus
  | execSelectedCommand
  | connectOrDisconnect (openOk : Bool)
  deriving DecidableEq, Repr

/-- The state after the function an intent names has run. -/
def perform (s : MainWindow) : Intent → MainWindow
  | Intent.powerInquiry => viscaPowerInquiry s
  | Intent.powerOn => viscaPowerOn s
  | Intent.powerOff => viscaPowerOff s
  | Intent.powerToggle confirm => powerToggle s confirm
  | Intent.ptzPressed dx dy => ptzPressed s dx dy
  | Intent.ptzReleased => ptzReleased s
  | Intent.zoomInPressed => zoomInPressed s
  | Intent.zoomOutPressed => zoomOutPressed s
  | Intent.zoomReleased => zoomReleased s
  | Intent.recallPreset n => sendRecallPreset s n
  | Intent.storePreset n => sendStorePreset s n
  | Intent.refocus => sendRefocus s
  | Intent.execSelectedCommand => execSelectedCommand s
  | Intent.connectOrDisconnect openOk => connectOrDisconnect s openOk

/-- The byte arrays an intent hands to `serial.write`: what `perform` adds to
the record of writes. -/
def emitted (s : MainWindow) (i : Intent) : List (List Nat) :=
  (perform s i).serial.written.drop s.serial.written.length

/-- A well-formed command of the protocol subset: it starts with the device
address 0x81, ends with the terminator 0xFF, and holds no other 0xFF. -/
def WellFormedCommand (c : List Nat) : Prop :=
  c ≠ [] ∧ c.head? = some 0x81 ∧ c.getLast? = some 0xFF ∧ 0xFF ∉ c.dropLast

/-- The record of writes `after` is the record `before`, or `before` with one
well-formed command added. -/
def AddsCommand (before after : List (List Nat)) : Prop :=
  after = before ∨ ∃ c, after = before ++ [c] ∧ WellFormedCommand c

/-! ## Notions used to state the properties -/

/-- The power reply a frame is, read off its bytes: `some On` for a frame of at
least 4 bytes that starts `90 50 02`, `some Off` for one that starts `90 50 03`,
and `none` for every other frame. -/
def replyOf (frame : List Nat) : Option PowerState :=
  if 4 ≤ frame.length ∧ frame[0]? = some 0x90 ∧ frame[1]? = some 0x50
      ∧ frame[2]? = some 0x02 then some PowerState.On
  else if 4 ≤ frame.length ∧ frame[0]? = some 0x90 ∧ frame[1]? = some 0x50
      ∧ frame[2]? = some 0x03 then some PowerState.Off
  else none

/-- The log line expected for a received frame: `RX: `, the bytes in
hexadecimal, and the note of a power reply when the frame is one. -/
def rxLine (frame : List Nat) : String :=
  match replyOf frame with
  | some PowerState.On => "RX: " ++ toHexSpaced frame ++ "    // " ++ "power=On"
  | some PowerState.Off => "RX: " ++ toHexSpaced frame ++ "    // " ++ "power=Off"
  | _ => "RX: " ++ toHexSpaced frame

/-- The power state the window shows: the texts `setPowerUi` gives to the
label and to the button for that state. -/
def uiShows (s : MainWindow) (p : PowerState) : Prop :=
  match p with
  | PowerState.On => s.powerLabel = "Power: On" ∧ s.powerButton = "Power Off"
  | PowerState.Off => s.powerLabel = "Power: Off" ∧ s.powerButton = "Power On"
  | PowerState.Unknown => s.powerLabel = "Power: Unknown" ∧ s.powerButton = "Power On"

instance uiShowsDecidable (s : MainWindow) (p : PowerState) : Decidable (uiShows s p) :=
  match p with
  | PowerState.On =>
      inferInstanceAs (Decidable (s.powerLabel = "Power: On" ∧ s.powerButton = "Power Off"))
  | PowerState.Off =>
      inferInstanceAs (Decidable (s.powerLabel = "Power: Off" ∧ s.powerButton = "Power On"))
  | PowerState.Unknown =>
      inferInstanceAs (Decidable (s.powerLabel = "Power: Unknown" ∧ s.powerButton = "Power On"))

/-- The upper-case hexadecimal digit of a value below 16. -/
def hexDigitUpper (n : Nat) : Char :=
  if n < 10 then Char.ofNat (48 + n) else Char.ofNat (55 + n)

/-- The two hexadecimal digits of an octet, high nibble first. -/
def hexPair (b : Nat) : List Char := [hexDigitUpper (b / 16), hexDigitUpper (b % 16)]

/-- The characters expected from `toHexSpaced`: the digit pairs of the bytes in
order, one space between two neighbours, nothing before the first pair and
nothing after the last. -/
def spacedHexChars : List Nat → List Char
  | [] => []
  | [b] => hexPair b
  | b :: next :: rest => hexPair b ++ ' ' :: spacedHexChars (next :: rest)

/-- A session that ends with a partial frame in the buffer: from the state
after construction, with the port "COM_TEST" selected, the port is opened,
the two bytes `90 50` arrive, and the operator disconnects. -/
def staleSession : MainWindow :=
  connectOrDisconnect
    (onSerialReadyRead (connectOrDisconnect { portCombo := "COM_TEST" } true) [0x90, 0x50]).2
    false

/-- A session in which the camera has reported "on": from the state after
construction, with the port "COM_TEST" selected, the port is opened and the
reply `90 50 02 FF` to the power inquiry arrives. -/
def poweredSession : MainWindow :=
  (onSerialReadyRead (connectOrDisconnect { portCombo := "COM_TEST" } true)
    [0x90, 0x50, 0x02, 0xFF]).2

theorem rxBuf_appendPlainText (s : MainWindow) (line : String) :
    (appendPlainText s line).rxBuf = s.rxBuf := by
  unfold appendPlainText
  cases s.rxView <;> rfl

theorem rxBuf_setPowerUi (s : MainWindow) (p : PowerState) :
    (setPowerUi s p).rxBuf = s.rxBuf := by
  cases p <;> rfl

theorem rxBuf_handleFrame (s : MainWindow) (frame : List Nat) :
    (handleFrame s frame).rxBuf = s.rxBuf := by
  unfold handleFrame appendRx classifyFrame
  split_ifs <;> simp [rxBuf_appendPlainText, rxBuf_setPowerUi]

/-! ## The transmit path: what `sendVisca` changes -/

theorem written_sendVisca (s : MainWindow) (bytes : List Nat)
    (hopen : s.serial.isOpen = true) :
    (sendVisca s bytes).serial.written = s.serial.written ++ [bytes] := by
  unfold sendVisca appendTx appendPlainText
  cases hv : s.rxView <;> simp [hopen]

theorem isOpen_sendVisca (s : MainWindow) (bytes : List Nat) :
    (sendVisca s bytes).serial.isOpen = s.serial.isOpen := by
  unfold sendVisca appendTx appendPlainText
  cases hv : s.rxView <;> cases ho : s.serial.isOpen <;> simp [ho]

theorem speeds_sendVisca (s : MainWindow) (bytes : List Nat) :
    (sendVisca s bytes).panSpeed = s.panSpeed ∧ (sendVisca s bytes).tiltSpeed = s.tiltSpeed
      ∧ (sendVisca s bytes).zoomSpeed = s.zoomSpeed := by
  unfold sendVisca appendTx appendPlainText
  cases hv : s.rxView <;> cases ho : s.serial.isOpen <;> simp

theorem clamp_of_mem (v lo hi : Int) (h1 : lo ≤ v) (h2 : v ≤ hi) : clamp v lo hi = v := by
  unfold clamp
  rw [if_neg (by omega), if_neg (by omega)]

theorem clamp_bounds (v lo hi : Int) (h : lo ≤ hi) :
    lo ≤ clamp v lo hi ∧ clamp v lo hi ≤ hi := by
  unfold clamp
  split_ifs <;> omega

theorem toByte_natCast (n : Nat) (h : n < 256) : toByte (n : Int) = n := by
  unfold toByte
  omega

/-! ## Pan/tilt commands -/

/-- C1: on an open port, with the pan slider at `p` in [1,24] and the tilt
slider at `t` in [1,20], `ptzPressed(dx, dy)` hands to the transport exactly
the 9 bytes `81 01 06 01 p t X Y FF`, where `X` is 01 for `dx < 0`, 02 for
`dx > 0`, 03 for `dx = 0`, and `Y` likewise from `dy`. This holds for every
pair of integers, so for the eight directions of the control pad. -/
theorem ptzPressed_command (s : MainWindow) (dx dy : Int) (p t : Nat)
    (hopen : s.serial.isOpen = true)
    (hp : 1 ≤ p ∧ p ≤ 24) (ht : 1 ≤ t ∧ t ≤ 20)
    (hpan : s.panSpeed = p) (htilt : s.tiltSpeed = t) :
    (ptzPressed s dx dy).serial.written = s.serial.written ++
      [[0x81, 0x01, 0x06, 0x01, p, t,
        if dx < 0 then 0x01 else if dx > 0 then 0x02 else 0x03,
        if dy < 0 then 0x01 else if dy > 0 then 0x02 else 0x03, 0xFF]] := by
  unfold ptzPressed
  simp only [hopen, Bool.not_true, Bool.false_eq_true, if_false]
  rw [written_sendVisca _ _ hopen, hpan, htilt,
    clamp_of_mem _ 1 24 (by omega) (by omega), clamp_of_mem _ 1 20 (by omega) (by omega),
    toByte_natCast p (by omega), toByte_natCast t (by omega)]
  congr 2
  split_ifs <;> simp [toByte]

/-- Instance of C1: pad button "up-left" with the default speeds. -/
theorem ptzPressed_command_witness :
    (ptzPressed { serial := { isOpen := true } } (-1) (-1)).serial.written
      = [] ++ [[0x81, 0x01, 0x06, 0x01, 12, 10,
        if (-1 : Int) < 0 then 0x01 else if (-1 : Int) > 0 then 0x02 else 0x03,
        if (-1 : Int) < 0 then 0x01 else if (-1 : Int) > 0 then 0x02 else 0x03, 0xFF]] :=
  ptzPressed_command { serial := { isOpen := true } } (-1) (-1) 12 10 rfl
    (by decide) (by decide) rfl rfl

/-- C9: on an open port, with the pan slider at `p` in [1,24] and the tilt
slider at `t` in [1,20], `ptzReleased` hands to the transport exactly
`81 01 06 01 p t 03 03 FF`, both when no press came before and right after
`ptzPressed(dx, dy)` for any direction. -/
theorem ptzReleased_command (s : MainWindow) (dx dy : Int) (p t : Nat)
    (hopen : s.serial.isOpen = true)
    (hp : 1 ≤ p ∧ p ≤ 24) (ht : 1 ≤ t ∧ t ≤ 20)
    (hpan : s.panSpeed = p) (htilt : s.tiltSpeed = t) :
    (ptzReleased s).serial.written
        = s.serial.written ++ [[0x81, 0x01, 0x06, 0x01, p, t, 0x03, 0x03, 0xFF]]
      ∧ (ptzReleased (ptzPressed s dx dy)).serial.written
        = (ptzPressed s dx dy).serial.written
            ++ [[0x81, 0x01, 0x06, 0x01, p, t, 0x03, 0x03, 0xFF]] := by
  have key : ∀ u : MainWindow, u.serial.isOpen = true → u.panSpeed = p → u.tiltSpeed = t →
      (ptzReleased u).serial.written
        = u.serial.written ++ [[0x81, 0x01, 0x06, 0x01, p, t, 0x03, 0x03, 0xFF]] := by
    intro u ho h1 h2
    unfold ptzReleased
    simp only [ho, Bool.not_true, Bool.false_eq_true, if_false]
    rw [written_sendVisca _ _ ho, h1, h2,
      clamp_of_mem _ 1 24 (by omega) (by omega), clamp_of_mem _ 1 20 (by omega) (by omega),
      toByte_natCast p (by omega), toByte_natCast t (by omega)]
    simp [toByte]
  refine ⟨key s hopen hpan htilt, key _ ?_ ?_ ?_⟩
  · unfold ptzPressed
    simp only [hopen, Bool.not_true, Bool.false_eq_true, if_false]
    rw [isOpen_sendVisca, hopen]
  · unfold ptzPressed
    simp only [hopen, Bool.not_true, Bool.false_eq_true, if_false]
    rw [(speeds_sendVisca _ _).1, hpan]
  · unfold ptzPressed
    simp only [hopen, Bool.not_true, Bool.false_eq_true, if_false]
    rw [(speeds_sendVisca _ _).2.1, htilt]

/-- Instance of C9: release with the default speeds, alone and after a press
of the pad button "down-right". -/
theorem ptzReleased_command_witness :
    (ptzReleased { serial := { isOpen := true } }).serial.written
        = [] ++ [[0x81, 0x01, 0x06, 0x01, 12, 10, 0x03, 0x03, 0xFF]]
      ∧ (ptzReleased (ptzPressed { serial := { isOpen := true } } 1 1)).serial.written
        = (ptzPressed { serial := { isOpen := true } } 1 1).serial.written
            ++ [[0x81, 0x01, 0x06, 0x01, 12, 10, 0x03, 0x03, 0xFF]] :=
  ptzReleased_command { serial := { isOpen := true } } 1 1 12 10 rfl
    (by decide) (by decide) rfl rfl

/-! ## Commands without arguments -/

/-- C10: on an open port the argument-free commands hand to the transport
exactly: power inquiry `81 09 04 00 FF`, power on `81 01 04 00 02 FF`,
power off `81 01 04 00 03 FF`, zoom stop `81 01 04 07 00 FF`,
refocus `81 01 04 18 01 FF`. -/
theorem fixed_commands (s : MainWindow) (hopen : s.serial.isOpen = true) :
    (viscaPowerInquiry s).serial.written = s.serial.written ++ [[0x81, 0x09, 0x04, 0x00, 0xFF]]
      ∧ (viscaPowerOn s).serial.written
          = s.serial.written ++ [[0x81, 0x01, 0x04, 0x00, 0x02, 0xFF]]
      ∧ (viscaPowerOff s).serial.written
          = s.serial.written ++ [[0x81, 0x01, 0x04, 0x00, 0x03, 0xFF]]
      ∧ (zoomReleased s).serial.written
          = s.serial.written ++ [[0x81, 0x01, 0x04, 0x07, 0x00, 0xFF]]
      ∧ (sendRefocus s).serial.written
          = s.serial.written ++ [[0x81, 0x01, 0x04, 0x18, 0x01, 0xFF]] := by
  have h1 : fromHex "81090400FF" = [0x81, 0x09, 0x04, 0x00, 0xFF] := by decide
  have h2 : fromHex "8101040002FF" = [0x81, 0x01, 0x04, 0x00, 0x02, 0xFF] := by decide
  have h3 : fromHex "8101040003FF" = [0x81, 0x01, 0x04, 0x00, 0x03, 0xFF] := by decide
  have h4 : fromHex "8101041801FF" = [0x81, 0x01, 0x04, 0x18, 0x01, 0xFF] := by decide
  have h5 : [toByte 0x81, toByte 0x01, toByte 0x04, toByte 0x07, toByte 0x00, toByte 0xFF]
      = [0x81, 0x01, 0x04, 0x07, 0x00, 0xFF] := by decide
  refine ⟨?_, ?_, ?_, ?_, ?_⟩
  · unfold viscaPowerInquiry
    rw [written_sendVisca _ _ hopen, h1]
  · unfold viscaPowerOn
    rw [written_sendVisca _ _ hopen, h2]
  · unfold viscaPowerOff
    rw [written_sendVisca _ _ hopen, h3]
  · unfold zoomReleased
    simp only [hopen, Bool.not_true, Bool.false_eq_true, if_false]
    rw [written_sendVisca _ _ hopen, h5]
  · unfold sendRefocus
    simp only [hopen, Bool.not_true, Bool.false_eq_true, if_false]
    rw [written_sendVisca _ _ hopen, h4]

/-- Instance of C10: the five commands on a freshly opened port. -/
theorem fixed_commands_witness :
    (viscaPowerInquiry { serial := { isOpen := true } }).serial.written
        = [] ++ [[0x81, 0x09, 0x04, 0x00, 0xFF]]
      ∧ (viscaPowerOn { serial := { isOpen := true } }).serial.written
          = [] ++ [[0x81, 0x01, 0x04, 0x00, 0x02, 0xFF]]
      ∧ (viscaPowerOff { serial := { isOpen := true } }).serial.written
          = [] ++ [[0x81, 0x01, 0x04, 0x00, 0x03, 0xFF]]
      ∧ (zoomReleased { serial := { isOpen := true } }).serial.written
          = [] ++ [[0x81, 0x01, 0x04, 0x07, 0x00, 0xFF]]
      ∧ (sendRefocus { serial := { isOpen := true } }).serial.written
          = [] ++ [[0x81, 0x01, 0x04, 0x18, 0x01, 0xFF]] :=
  fixed_commands { serial := { isOpen := true } } rfl

/-! ## Preset commands -/

/-- C7: for every integer `n`, on an open port `sendRecallPreset(n)` hands to
the transport exactly `81 01 04 3F 02 n FF` and `sendStorePreset(n)` exactly
`81 01 04 3F 01 n FF` when `0 ≤ n ≤ 15`; when `n < 0` or `n > 15` each of them
returns at once and leaves the whole state as it was, open port or not, so no
byte is emitted. -/
theorem preset_commands (s : MainWindow) (n : Int) :
    (s.serial.isOpen = true → 0 ≤ n ∧ n ≤ 15 →
        (sendRecallPreset s n).serial.written
            = s.serial.written ++ [[0x81, 0x01, 0x04, 0x3F, 0x02, n.toNat, 0xFF]]
          ∧ (sendStorePreset s n).serial.written
            = s.serial.written ++ [[0x81, 0x01, 0x04, 0x3F, 0x01, n.toNat, 0xFF]])
      ∧ (n < 0 ∨ n > 15 → sendRecallPreset s n = s ∧ sendStorePreset s n = s) := by
  refine ⟨fun hopen hn => ?_, fun hn => ?_⟩
  · have hb : toByte n = n.toNat := by
      unfold toByte
      omega
    unfold sendRecallPreset sendStorePreset
    rw [if_neg (by omega), if_neg (by omega), written_sendVisca _ _ hopen,
      written_sendVisca _ _ hopen, hb]
    simp [toByte]
  · unfold sendRecallPreset sendStorePreset
    exact ⟨if_pos hn, if_pos hn⟩

/-- Instance of C7: preset 5 is recalled and stored on an open port;
`sendRecallPreset(16)` and `sendStorePreset(-1)` emit nothing there. -/
theorem preset_commands_witness :
    ((sendRecallPreset { serial := { isOpen := true } } 5).serial.written
          = [] ++ [[0x81, 0x01, 0x04, 0x3F, 0x02, 5, 0xFF]]
        ∧ (sendStorePreset { serial := { isOpen := true } } 5).serial.written
          = [] ++ [[0x81, 0x01, 0x04, 0x3F, 0x01, 5, 0xFF]])
      ∧ (sendRecallPreset { serial := { isOpen := true } } 16).serial.written = []
      ∧ (sendStorePreset { serial := { isOpen := true } } (-1)).serial.written = [] :=
  ⟨(preset_commands { serial := { isOpen := true } } 5).1 rfl (by decide),
    congrArg (fun u => u.serial.written)
      ((preset_commands { serial := { isOpen := true } } 16).2 (by decide)).1,
    congrArg (fun u => u.serial.written)
      ((preset_commands { serial := { isOpen := true } } (-1)).2 (by decide)).2⟩

/-! ## Zoom commands -/

theorem lor_zoom (z : Nat) (hz : z ≤ 7) :
    toByte (Int.lor 0x20 (z : Int) % 256) = 0x20 + z
      ∧ toByte (Int.lor 0x30 (z : Int) % 256) = 0x30 + z
      ∧ 0x20 ||| z = 0x20 + z ∧ 0x30 ||| z = 0x30 + z := by
  interval_cases z <;> decide

/-- C8: on an open port, with the zoom slider at `z` in [0,7], `zoomInPressed`
hands to the transport exactly `81 01 04 07 (0x20 | z) FF` and `zoomOutPressed`
exactly `81 01 04 07 (0x30 | z) FF`, and there `0x20 | z = 0x20 + z` and
`0x30 | z = 0x30 + z`. -/
theorem zoomPressed_command (s : MainWindow) (z : Nat)
    (hopen : s.serial.isOpen = true) (hz : z ≤ 7) (hzoom : s.zoomSpeed = z) :
    (zoomInPressed s).serial.written
        = s.serial.written ++ [[0x81, 0x01, 0x04, 0x07, 0x20 ||| z, 0xFF]]
      ∧ (zoomOutPressed s).serial.written
        = s.serial.written ++ [[0x81, 0x01, 0x04, 0x07, 0x30 ||| z, 0xFF]]
      ∧ 0x20 ||| z = 0x20 + z ∧ 0x30 ||| z = 0x30 + z := by
  obtain ⟨h1, h2, h3, h4⟩ := lor_zoom z hz
  refine ⟨?_, ?_, h3, h4⟩
  · unfold zoomInPressed
    simp only [hopen, Bool.not_true, Bool.false_eq_true, if_false]
    rw [written_sendVisca _ _ hopen, hzoom, clamp_of_mem _ 0 7 (by omega) (by omega), h1, h3]
    simp [toByte]
  · unfold zoomOutPressed
    simp only [hopen, Bool.not_true, Bool.false_eq_true, if_false]
    rw [written_sendVisca _ _ hopen, hzoom, clamp_of_mem _ 0 7 (by omega) (by omega), h2, h4]
    simp [toByte]

/-- Instance of C8: tele at speed 3 gives `81 01 04 07 23 FF`, wide at speed 7
gives `81 01 04 07 37 FF`. -/
theorem zoomPressed_command_witness :
    (zoomInPressed { serial := { isOpen := true }, zoomSpeed := 3 }).serial.written
        = [[0x81, 0x01, 0x04, 0x07, 0x23, 0xFF]]
      ∧ (zoomOutPressed { serial := { isOpen := true }, zoomSpeed := 7 }).serial.written
        = [[0x81, 0x01, 0x04, 0x07, 0x37, 0xFF]] :=
  ⟨(zoomPressed_command { serial := { isOpen := true }, zoomSpeed := 3 } 3 rfl
      (by decide) rfl).1,
    (zoomPressed_command { serial := { isOpen := true }, zoomSpeed := 7 } 7 rfl
      (by decide) rfl).2.1⟩

/-! ## Pan/tilt and zoom commands in terms of the clamped slider values -/

theorem setPowerUi_note_ne (s u : MainWindow) (p : PowerState) :
    (setPowerUi s p, "power=On") ≠ (u, "") ∧ (setPowerUi s p, "power=Off") ≠ (u, "")
      ∧ (setPowerUi s PowerState.On, "power=On") ≠ (setPowerUi s PowerState.Off, "power=Off") := by
  refine ⟨fun h => ?_, fun h => ?_, fun h => ?_⟩
  · have h2 : "power=On" = "" := congrArg Prod.snd h
    exact absurd h2 (by decide)
  · have h2 : "power=Off" = "" := congrArg Prod.snd h
    exact absurd h2 (by decide)
  · have h2 : "power=On" = "power=Off" := congrArg Prod.snd h
    exact absurd h2 (by decide)

theorem byteAt_eq_iff (f : List Nat) (i c : Nat) (h : i < f.length) :
    byteAt f i = c ↔ f[i]? = some c := by
  unfold byteAt
  rw [List.getD_eq_getElem?_getD, List.getElem?_eq_getElem h]
  simp

/-- The three outcomes of the classification, by the first bytes of the frame. -/
theorem classifyFrame_cases (s : MainWindow) (f : List Nat) :
    (classifyFrame s f = (setPowerUi s PowerState.On, "power=On")
        ↔ 4 ≤ f.length ∧ f[0]? = some 0x90 ∧ f[1]? = some 0x50 ∧ f[2]? = some 0x02)
      ∧ (classifyFrame s f = (setPowerUi s PowerState.Off, "power=Off")
        ↔ 4 ≤ f.length ∧ f[0]? = some 0x90 ∧ f[1]? = some 0x50 ∧ f[2]? = some 0x03)
      ∧ (¬ (4 ≤ f.length ∧ f[0]? = some 0x90 ∧ f[1]? = some 0x50 ∧ f[2]? = some 0x02) →
          ¬ (4 ≤ f.length ∧ f[0]? = some 0x90 ∧ f[1]? = some 0x50 ∧ f[2]? = some 0x03) →
          classifyFrame s f = (s, "") ∧ handleFrame s f = appendRx s f "") := by
  obtain ⟨n1, n2, n3⟩ := setPowerUi_note_ne s s PowerState.On
  obtain ⟨_, n4, _⟩ := setPowerUi_note_ne s s PowerState.Off
  by_cases hlen : 4 ≤ f.length
  · have e0 := fun c => byteAt_eq_iff f 0 c (by omega)
    have e1 := fun c => byteAt_eq_iff f 1 c (by omega)
    have e2 := fun c => byteAt_eq_iff f 2 c (by omega)
    simp only [← e0, ← e1, ← e2]
    unfold handleFrame classifyFrame
    by_cases h0 : byteAt f 0 = 0x90 <;> by_cases h1 : byteAt f 1 = 0x50 <;>
      by_cases h2 : byteAt f 2 = 0x02 <;> by_cases h3 : byteAt f 2 = 0x03 <;>
      simp_all [Ne.symm n1, Ne.symm n4, Ne.symm n3]
  · have hc : classifyFrame s f = (s, "") := by
      unfold classifyFrame
      rw [if_neg (fun h => hlen h.1)]
    unfold handleFrame
    rw [hc]
    simp [hlen, Ne.symm n1, Ne.symm n4]

/-- C4: for every frame `f`, the classification in `processIncomingFrames`
is PowerOn (`setPowerUi(On)`, note "power=On") if and only if `len f ≥ 4`,
`f[0] = 0x90`, `f[1] = 0x50` and `f[2] = 0x02`; it is PowerOff
(`setPowerUi(Off)`, note "power=Off") if and only if `len f ≥ 4`, `f[0] = 0x90`,
`f[1] = 0x50` and `f[2] = 0x03`; in every other case the state is untouched and
the note is empty, and the iteration only logs the raw frame: there is no
error path. -/
theorem classifyFrame_iff (s : MainWindow) (f : List Nat) :
    (classifyFrame s f = (setPowerUi s PowerState.On, "power=On")
        ↔ 4 ≤ f.length ∧ f[0]? = some 0x90 ∧ f[1]? = some 0x50 ∧ f[2]? = some 0x02)
      ∧ (classifyFrame s f = (setPowerUi s PowerState.Off, "power=Off")
        ↔ 4 ≤ f.length ∧ f[0]? = some 0x90 ∧ f[1]? = some 0x50 ∧ f[2]? = some 0x03)
      ∧ (¬ (4 ≤ f.length ∧ f[0]? = some 0x90 ∧ f[1]? = some 0x50 ∧ f[2]? = some 0x02) →
          ¬ (4 ≤ f.length ∧ f[0]? = some 0x90 ∧ f[1]? = some 0x50 ∧ f[2]? = some 0x03) →
          classifyFrame s f = (s, "") ∧ handleFrame s f = appendRx s f "") :=
  classifyFrame_cases s f

/-- Instance of C4: `90 41 FF` matches neither reply shape, so it is left
unclassified and only logged. -/
theorem classifyFrame_iff_witness :
    classifyFrame {} [0x90, 0x41, 0xFF] = ({}, "")
      ∧ handleFrame {} [0x90, 0x41, 0xFF] = appendRx {} [0x90, 0x41, 0xFF] "" :=
  (classifyFrame_iff {} [0x90, 0x41, 0xFF]).2.2 (by decide) (by decide)

/-- C5, refuted as stated: the 5-byte sequence `90 50 02 00 FF` is neither of
the two exact 4-byte replies, and it is classified PowerOn, not left
unclassified. -/
theorem classifyFrame_longer_reply :
    [0x90, 0x50, 0x02, 0x00, 0xFF] ≠ [0x90, 0x50, 0x02, 0xFF]
      ∧ [0x90, 0x50, 0x02, 0x00, 0xFF] ≠ [0x90, 0x50, 0x03, 0xFF]
      ∧ classifyFrame {} [0x90, 0x50, 0x02, 0x00, 0xFF]
          = (setPowerUi {} PowerState.On, "power=On")
      ∧ classifyFrame {} [0x90, 0x50, 0x02, 0x00, 0xFF] ≠ ({}, "")
      ∧ (handleFrame {} [0x90, 0x50, 0x02, 0x00, 0xFF]).powerState = PowerState.On := by
  decide

/-- C5, amended: `90 50 02 FF` is classified PowerOn and `90 50 03 FF` PowerOff,
and every byte sequence that is not at least 4 bytes long with first bytes
`90 50 02` or `90 50 03` is left unclassified: state untouched, empty note, and
the frame logged as it is. -/
theorem classifyFrame_exact (s : MainWindow) (f : List Nat) :
    classifyFrame s [0x90, 0x50, 0x02, 0xFF] = (setPowerUi s PowerState.On, "power=On")
      ∧ classifyFrame s [0x90, 0x50, 0x03, 0xFF] = (setPowerUi s PowerState.Off, "power=Off")
      ∧ (¬ (4 ≤ f.length ∧ f[0]? = some 0x90 ∧ f[1]? = some 0x50
              ∧ (f[2]? = some 0x02 ∨ f[2]? = some 0x03)) →
          classifyFrame s f = (s, "") ∧ handleFrame s f = appendRx s f "") := by
  refine ⟨(classifyFrame_cases s _).1.mpr (by decide),
    (classifyFrame_cases s _).2.1.mpr (by decide), fun h => ?_⟩
  apply (classifyFrame_cases s f).2.2
  · exact fun h2 => h ⟨h2.1, h2.2.1, h2.2.2.1, Or.inl h2.2.2.2⟩
  · exact fun h2 => h ⟨h2.1, h2.2.1, h2.2.2.1, Or.inr h2.2.2.2⟩

/-- Instance of the amended C5: the 4-byte sequence `90 50 04 FF` is left
unclassified. -/
theorem classifyFrame_exact_witness :
    classifyFrame {} [0x90, 0x50, 0x04, 0xFF] = ({}, "")
      ∧ handleFrame {} [0x90, 0x50, 0x04, 0xFF] = appendRx {} [0x90, 0x50, 0x04, 0xFF] "" :=
  (classifyFrame_exact {} [0x90, 0x50, 0x04, 0xFF]).2.2 (by decide)

/-! ## The frame loop -/

theorem indexOf_of_not_mem (b : List Nat) (c : Nat) (h : c ∉ b) : indexOf b c = -1 := by
  unfold indexOf
  rw [if_neg]
  rw [List.indexOf_lt_length]
  exact h

theorem list_indexOf_append_cons (pre rest : List Nat) (c : Nat) (h : c ∉ pre) :
    List.indexOf c (pre ++ c :: rest) = pre.length := by
  induction pre with
  | nil => simp
  | cons x xs ih =>
    have hx : x ≠ c := fun e => h (by simp [e])
    have hxs : c ∉ xs := fun e => h (by simp [e])
    rw [List.cons_append, List.indexOf_cons_ne _ hx, ih hxs, List.length_cons]

theorem indexOf_append_cons (pre rest : List Nat) (c : Nat) (h : c ∉ pre) :
    indexOf (pre ++ c :: rest) c = pre.length := by
  unfold indexOf
  rw [list_indexOf_append_cons pre rest c h, if_pos]
  simp

theorem left_append_cons (pre rest : List Nat) (c : Nat) :
    left (pre ++ c :: rest) ((pre.length : Int) + 1) = pre ++ [c] := by
  have h : ((pre.length : Int) + 1).toNat = (pre ++ [c]).length := by
    rw [List.length_append, List.length_singleton]
    omega
  unfold left
  rw [h, show pre ++ c :: rest = (pre ++ [c]) ++ rest by simp, List.take_left]

theorem remove_append_cons (pre rest : List Nat) (c : Nat) :
    remove (pre ++ c :: rest) 0 ((pre.length : Int) + 1) = rest := by
  have h : ((pre.length : Int) + 1).toNat = (pre ++ [c]).length := by
    rw [List.length_append, List.length_singleton]
    omega
  unfold remove
  rw [h, show pre ++ c :: rest = (pre ++ [c]) ++ rest by simp]
  simp

/-- The loop is left at once, with nothing changed, when the buffer holds
no terminator. -/
theorem processIncomingFrames_of_not_mem (s : MainWindow) (h : 0xFF ∉ s.rxBuf) :
    processIncomingFrames s = ([], s) := by
  rw [processIncomingFrames]
  simp [indexOf_of_not_mem _ _ h]

/-- One iteration: the bytes up to the first terminator are cut off as a
frame and handled, and the loop goes on with the rest. -/
theorem processIncomingFrames_of_split (s : MainWindow) (pre rest : List Nat)
    (h : 0xFF ∉ pre) (hb : s.rxBuf = pre ++ 0xFF :: rest) :
    processIncomingFrames s
      = ((pre ++ [0xFF])
          :: (processIncomingFrames (handleFrame { s with rxBuf := rest } (pre ++ [0xFF]))).1,
        (processIncomingFrames (handleFrame { s with rxBuf := rest } (pre ++ [0xFF]))).2) := by
  rw [processIncomingFrames]
  have hneg : ¬ ((pre.length : Int) < 0) := by omega
  simp only [hb, indexOf_append_cons pre rest 0xFF h, hneg, dite_false, left_append_cons,
    remove_append_cons]

/-- What the loop returns: the frames followed by the leftover are the
buffer it started from, each frame is a terminator preceded by bytes that are
not terminators, and the leftover holds no terminator. -/
theorem processIncomingFrames_split (n : Nat) :
    ∀ s : MainWindow, s.rxBuf.length = n →
      (processIncomingFrames s).1.flatten ++ (processIncomingFrames s).2.rxBuf = s.rxBuf
        ∧ (∀ f ∈ (processIncomingFrames s).1,
            f ≠ [] ∧ f.getLast? = some 0xFF ∧ 0xFF ∉ f.dropLast)
        ∧ 0xFF ∉ (processIncomingFrames s).2.rxBuf := by
  induction n using Nat.strong_induction_on with
  | _ n ih =>
    intro s hn
    by_cases hm : 0xFF ∈ s.rxBuf
    · obtain ⟨pre, rest, hb, hpre⟩ := List.eq_append_cons_of_mem hm
      have hlt : rest.length < n := by
        rw [← hn, hb, List.length_append, List.length_cons]
        omega
      obtain ⟨h1, h2, h3⟩ := ih rest.length hlt
        (handleFrame { s with rxBuf := rest } (pre ++ [0xFF])) (by rw [rxBuf_handleFrame])
      rw [rxBuf_handleFrame] at h1
      rw [processIncomingFrames_of_split s pre rest hpre hb]
      refine ⟨?_, ?_, h3⟩
      · rw [List.flatten_cons, List.append_assoc, h1, hb]
        simp
      · intro f hf
        rcases List.mem_cons.mp hf with rfl | hf
        · refine ⟨by simp, by simp, ?_⟩
          rw [List.dropLast_concat]
          exact hpre
        · exact h2 f hf
    · rw [processIncomingFrames_of_not_mem s hm]
      exact ⟨by simp, by simp, hm⟩

/-- C2: for every buffer, the frame loop yields frames `fs` and a leftover `r`
such that `fs` concatenated, followed by `r`, is the buffer; every frame is
non-empty, ends with 0xFF and holds no other 0xFF; `r` holds no 0xFF, so
nothing at or before the last terminator stays buffered. On the buffer
`90 50 02 FF 90 50 03` the frames are `[90 50 02 FF]` and the leftover is
`90 50 03`. -/
theorem processIncomingFrames_frames (s : MainWindow) :
    (processIncomingFrames s).1.flatten ++ (processIncomingFrames s).2.rxBuf = s.rxBuf
      ∧ (∀ f ∈ (processIncomingFrames s).1,
          f ≠ [] ∧ f.getLast? = some 0xFF ∧ 0xFF ∉ f.dropLast)
      ∧ 0xFF ∉ (processIncomingFrames s).2.rxBuf
      ∧ (processIncomingFrames { rxBuf := [0x90, 0x50, 0x02, 0xFF, 0x90, 0x50, 0x03] }).1
          = [[0x90, 0x50, 0x02, 0xFF]]
      ∧ (processIncomingFrames { rxBuf := [0x90, 0x50, 0x02, 0xFF, 0x90, 0x50, 0x03] }).2.rxBuf
          = [0x90, 0x50, 0x03] := by
  obtain ⟨h1, h2, h3⟩ := processIncomingFrames_split s.rxBuf.length s rfl
  refine ⟨h1, h2, h3, ?_⟩
  rw [processIncomingFrames_of_split _ [0x90, 0x50, 0x02] [0x90, 0x50, 0x03] (by decide) rfl,
    processIncomingFrames_of_not_mem _ (by rw [rxBuf_handleFrame]; decide), rxBuf_handleFrame]
  exact ⟨rfl, rfl⟩

/-! ## Fragmented reads -/

theorem handleFrame_rxBuf (s : MainWindow) (f b : List Nat) :
    handleFrame { s with rxBuf := b } f = { handleFrame s f with rxBuf := b } := by
  unfold handleFrame appendRx classifyFrame appendPlainText setPowerUi
  cases hv : s.rxView <;> split_ifs <;> simp_all

/-- Running the loop after more bytes arrived gives the frames the loop gives
now, followed by those it gives when the new bytes are appended to what it
leaves. -/
theorem processIncomingFrames_append (n : Nat) :
    ∀ (s : MainWindow) (data : List Nat), s.rxBuf.length = n →
      processIncomingFrames { s with rxBuf := s.rxBuf ++ data }
        = ((processIncomingFrames s).1
            ++ (onSerialReadyRead (processIncomingFrames s).2 data).1,
          (onSerialReadyRead (processIncomingFrames s).2 data).2) := by
  induction n using Nat.strong_induction_on with
  | _ n ih =>
    intro s data hn
    by_cases hm : 0xFF ∈ s.rxBuf
    · obtain ⟨pre, rest, hb, hpre⟩ := List.eq_append_cons_of_mem hm
      have hlt : rest.length < n := by
        rw [← hn, hb, List.length_append, List.length_cons]
        omega
      have hb2 : ({ s with rxBuf := s.rxBuf ++ data } : MainWindow).rxBuf
          = pre ++ 0xFF :: (rest ++ data) := by
        simp [hb]
      have hih := ih rest.length hlt
        (handleFrame { s with rxBuf := rest } (pre ++ [0xFF])) data (by rw [rxBuf_handleFrame])
      rw [rxBuf_handleFrame, ← handleFrame_rxBuf] at hih
      rw [processIncomingFrames_of_split _ pre (rest ++ data) hpre hb2,
        processIncomingFrames_of_split s pre rest hpre hb]
      simp only at hih
      simp only [hih, List.cons_append]
    · rw [processIncomingFrames_of_not_mem s hm]
      simp [onSerialReadyRead]

theorem readChunks_eq (chunks : List (List Nat)) :
    ∀ s : MainWindow, 0xFF ∉ s.rxBuf →
      readChunks s chunks = onSerialReadyRead s chunks.flatten := by
  induction chunks with
  | nil =>
    intro s hs
    have hself : ({ s with rxBuf := s.rxBuf ++ [] } : MainWindow) = s := by simp
    simp only [readChunks, onSerialReadyRead, List.flatten_nil]
    rw [hself, processIncomingFrames_of_not_mem s hs]
  | cons c cs ih =>
    intro s hs
    have hleft : 0xFF ∉ (onSerialReadyRead s c).2.rxBuf :=
      (processIncomingFrames_split _ _ rfl).2.2
    have happ := processIncomingFrames_append _ { s with rxBuf := s.rxBuf ++ c } cs.flatten rfl
    simp only [List.append_assoc] at happ
    simp only [readChunks, ih _ hleft, List.flatten_cons]
    rw [show onSerialReadyRead s (c ++ cs.flatten)
        = processIncomingFrames { s with rxBuf := s.rxBuf ++ (c ++ cs.flatten) } from rfl, happ]
    rfl

/-- C3: frame reassembly does not depend on the fragmentation of the stream.
Starting from an empty receive buffer, for every list of consecutive chunks
(empty ones allowed), `onSerialReadyRead` run once per chunk produces in total
the same frames, and ends in the same state (leftover buffer, power state and
log included), as one run of `onSerialReadyRead` on the whole stream. -/
theorem readChunks_eq_single_read (s : MainWindow) (chunks : List (List Nat))
    (hempty : s.rxBuf = []) :
    readChunks s chunks = onSerialReadyRead s chunks.flatten
      ∧ (readChunks s chunks).1 = (onSerialReadyRead s chunks.flatten).1
      ∧ (readChunks s chunks).2.rxBuf = (onSerialReadyRead s chunks.flatten).2.rxBuf := by
  have h := readChunks_eq chunks s (by rw [hempty]; decide)
  exact ⟨h, by rw [h], by rw [h]⟩

/-- Instance of C3: the stream `90 50 02 FF 90 50 03 FF 01` cut into four
chunks, one of them empty; both ways give the frames `90 50 02 FF` and
`90 50 03 FF`. -/
theorem readChunks_eq_single_read_witness :
    (readChunks {} [[0x90, 0x50], [0x02, 0xFF, 0x90], [], [0x50, 0x03, 0xFF, 0x01]]
        = onSerialReadyRead {} [0x90, 0x50, 0x02, 0xFF, 0x90, 0x50, 0x03, 0xFF, 0x01]
      ∧ (readChunks {} [[0x90, 0x50], [0x02, 0xFF, 0x90], [], [0x50, 0x03, 0xFF, 0x01]]).1
        = (onSerialReadyRead {} [0x90, 0x50, 0x02, 0xFF, 0x90, 0x50, 0x03, 0xFF, 0x01]).1
      ∧ (readChunks {} [[0x90, 0x50], [0x02, 0xFF, 0x90], [], [0x50, 0x03, 0xFF, 0x01]]).2.rxBuf
        = (onSerialReadyRead {} [0x90, 0x50, 0x02, 0xFF, 0x90, 0x50, 0x03, 0xFF, 0x01]).2.rxBuf)
      ∧ (onSerialReadyRead {} [0x90, 0x50, 0x02, 0xFF, 0x90, 0x50, 0x03, 0xFF, 0x01]).1
        = [[0x90, 0x50, 0x02, 0xFF], [0x90, 0x50, 0x03, 0xFF]] := by
  refine ⟨readChunks_eq_single_read {}
    [[0x90, 0x50], [0x02, 0xFF, 0x90], [], [0x50, 0x03, 0xFF, 0x01]] rfl, ?_⟩
  unfold onSerialReadyRead
  rw [processIncomingFrames_of_split _ [0x90, 0x50, 0x02] [0x90, 0x50, 0x03, 0xFF, 0x01]
      (by decide) rfl,
    processIncomingFrames_of_split _ [0x90, 0x50, 0x03] [0x01] (by decide)
      ((rxBuf_handleFrame _ _).trans rfl),
    processIncomingFrames_of_not_mem _ (by rw [rxBuf_handleFrame]; decide)]
  rfl

/-! ## What an intent hands to the transport -/

theorem sendVisca_closed (s : MainWindow) (bytes : List Nat) (h : s.serial.isOpen = false) :
    sendVisca s bytes = s := by
  unfold sendVisca
  simp [h]

theorem serial_setPowerUi (s : MainWindow) (p : PowerState) :
    (setPowerUi s p).serial = s.serial := by
  cases p <;> rfl

theorem serial_appendPlainText (s : MainWindow) (line : String) :
    (appendPlainText s line).serial = s.serial := by
  unfold appendPlainText
  cases s.rxView <;> rfl

theorem wellFormed_of_body (body : List Nat) (h : 0xFF ∉ body) :
    WellFormedCommand (0x81 :: (body ++ [0xFF])) := by
  refine ⟨by simp, rfl, ?_, ?_⟩
  · rw [← List.cons_append, List.getLast?_concat]
  · rw [← List.cons_append, List.dropLast_concat]
    simp only [List.mem_cons, not_or]
    exact ⟨by decide, h⟩

theorem addsCommand_sendVisca (s : MainWindow) (body : List Nat) (h : 0xFF ∉ body) :
    AddsCommand s.serial.written (sendVisca s (0x81 :: (body ++ [0xFF]))).serial.written := by
  cases ho : s.serial.isOpen
  · left
    rw [sendVisca_closed s _ ho]
  · right
    exact ⟨_, written_sendVisca s _ ho, wellFormed_of_body body h⟩

theorem addsCommand_power (s : MainWindow) :
    AddsCommand s.serial.written (viscaPowerInquiry s).serial.written
      ∧ AddsCommand s.serial.written (viscaPowerOn s).serial.written
      ∧ AddsCommand s.serial.written (viscaPowerOff s).serial.written := by
  have h1 : fromHex "81090400FF" = 0x81 :: ([0x09, 0x04, 0x00] ++ [0xFF]) := by decide
  have h2 : fromHex "8101040002FF" = 0x81 :: ([0x01, 0x04, 0x00, 0x02] ++ [0xFF]) := by decide
  have h3 : fromHex "8101040003FF" = 0x81 :: ([0x01, 0x04, 0x00, 0x03] ++ [0xFF]) := by decide
  unfold viscaPowerInquiry viscaPowerOn viscaPowerOff
  rw [h1, h2, h3]
  exact ⟨addsCommand_sendVisca s _ (by decide), addsCommand_sendVisca s _ (by decide),
    addsCommand_sendVisca s _ (by decide)⟩

theorem addsCommand_powerToggle (s : MainWindow) (confirm : Bool) :
    AddsCommand s.serial.written (powerToggle s confirm).serial.written := by
  obtain ⟨_, hon, hoff⟩ := addsCommand_power s
  unfold powerToggle
  cases s.serial.isOpen <;> cases containsCaseInsensitive s.powerButton "Off" <;>
    cases confirm <;>
    simp only [Bool.not_true, Bool.not_false, Bool.false_eq_true, if_true, if_false,
      serial_setPowerUi] <;>
    first | exact Or.inl rfl | exact hon | exact hoff

theorem addsCommand_ptz (s : MainWindow) (dx dy : Int) :
    AddsCommand s.serial.written (ptzPressed s dx dy).serial.written
      ∧ AddsCommand s.serial.written (ptzReleased s).serial.written := by
  have hp := clamp_bounds s.panSpeed 1 24 (by decide)
  have ht := clamp_bounds s.tiltSpeed 1 20 (by decide)
  cases ho : s.serial.isOpen
  · exact ⟨Or.inl (by simp [ptzPressed, ho]), Or.inl (by simp [ptzReleased, ho])⟩
  · unfold ptzPressed ptzReleased
    simp only [ho, Bool.not_true, Bool.false_eq_true, if_false]
    constructor
    · apply addsCommand_sendVisca s [toByte 0x01, toByte 0x06, toByte 0x01,
        toByte (clamp s.panSpeed 1 24), toByte (clamp s.tiltSpeed 1 20),
        toByte (if dx < 0 then 0x01 else if dx > 0 then 0x02 else 0x03),
        toByte (if dy < 0 then 0x01 else if dy > 0 then 0x02 else 0x03)]
      simp only [List.mem_cons, List.mem_singleton, List.not_mem_nil, or_false, not_or, toByte]
      split_ifs <;> omega
    · apply addsCommand_sendVisca s [toByte 0x01, toByte 0x06, toByte 0x01,
        toByte (clamp s.panSpeed 1 24), toByte (clamp s.tiltSpeed 1 20), toByte 0x03,
        toByte 0x03]
      simp only [List.mem_cons, List.mem_singleton, List.not_mem_nil, or_false, not_or, toByte]
      omega

theorem addsCommand_zoom (s : MainWindow) :
    AddsCommand s.serial.written (zoomInPressed s).serial.written
      ∧ AddsCommand s.serial.written (zoomOutPressed s).serial.written
      ∧ AddsCommand s.serial.written (zoomReleased s).serial.written
      ∧ AddsCommand s.serial.written (sendRefocus s).serial.written := by
  have hz := clamp_bounds s.zoomSpeed 0 7 (by decide)
  have hcast : (((clamp s.zoomSpeed 0 7).toNat : Nat) : Int) = clamp s.zoomSpeed 0 7 :=
    Int.toNat_of_nonneg hz.1
  have hl := lor_zoom (clamp s.zoomSpeed 0 7).toNat (by omega)
  rw [hcast] at hl
  have h4 : fromHex "8101041801FF" = 0x81 :: ([0x01, 0x04, 0x18, 0x01] ++ [0xFF]) := by decide
  cases ho : s.serial.isOpen
  · exact ⟨Or.inl (by simp [zoomInPressed, ho]), Or.inl (by simp [zoomOutPressed, ho]),
      Or.inl (by simp [zoomReleased, ho]), Or.inl (by simp [sendRefocus, ho])⟩
  · unfold zoomInPressed zoomOutPressed zoomReleased sendRefocus
    simp only [ho, Bool.not_true, Bool.false_eq_true, if_false]
    refine ⟨?_, ?_, ?_, ?_⟩
    · apply addsCommand_sendVisca s [toByte 0x01, toByte 0x04, toByte 0x07,
        toByte (Int.lor 0x20 (clamp s.zoomSpeed 0 7) % 256)]
      rw [hl.1]
      simp only [List.mem_cons, List.mem_singleton, List.not_mem_nil, or_false, not_or, toByte]
      omega
    · apply addsCommand_sendVisca s [toByte 0x01, toByte 0x04, toByte 0x07,
        toByte (Int.lor 0x30 (clamp s.zoomSpeed 0 7) % 256)]
      rw [hl.2.1]
      simp only [List.mem_cons, List.mem_singleton, List.not_mem_nil, or_false, not_or, toByte]
      omega
    · exact addsCommand_sendVisca s [toByte 0x01, toByte 0x04, toByte 0x07, toByte 0x00]
        (by decide)
    · rw [h4]
      exact addsCommand_sendVisca s _ (by decide)

theorem addsCommand_preset (s : MainWindow) (n : Int) :
    AddsCommand s.serial.written (sendRecallPreset s n).serial.written
      ∧ AddsCommand s.serial.written (sendStorePreset s n).serial.written := by
  unfold sendRecallPreset sendStorePreset
  constructor
  · split_ifs with hn
    · exact Or.inl rfl
    · apply addsCommand_sendVisca s [toByte 0x01, toByte 0x04, toByte 0x3F, toByte 0x02, toByte n]
      simp only [List.mem_cons, List.mem_singleton, List.not_mem_nil, or_false, not_or, toByte]
      omega
  · split_ifs with hn
    · exact Or.inl rfl
    · apply addsCommand_sendVisca s [toByte 0x01, toByte 0x04, toByte 0x3F, toByte 0x01, toByte n]
      simp only [List.mem_cons, List.mem_singleton, List.not_mem_nil, or_false, not_or, toByte]
      omega

theorem itemData_cases (idx : Int) :
    itemData idx = [] ∨ itemData idx = 0x81 :: ([0x09, 0x04, 0x00] ++ [0xFF])
      ∨ itemData idx = 0x81 :: ([0x01, 0x06, 0x04] ++ [0xFF])
      ∨ itemData idx = 0x81 :: ([0x01, 0x04, 0x18, 0x01] ++ [0xFF])
      ∨ itemData idx = 0x81 :: ([0x01, 0x04, 0x38, 0x02] ++ [0xFF])
      ∨ itemData idx = 0x81 :: ([0x01, 0x04, 0x38, 0x03] ++ [0xFF]) := by
  by_cases hneg : idx < 0
  · left
    unfold itemData
    rw [if_pos hneg]
  · by_cases hbig : 5 ≤ idx
    · left
      unfold itemData
      rw [if_neg hneg, List.get?_eq_none.mpr]
      · rfl
      · show 5 ≤ idx.toNat
        omega
    · obtain ⟨k, hk⟩ : ∃ k : Nat, idx = k := ⟨idx.toNat, by omega⟩
      subst hk
      have hk5 : k < 5 := by omega
      interval_cases k <;> decide

theorem addsCommand_execSelectedCommand (s : MainWindow) :
    AddsCommand s.serial.written (execSelectedCommand s).serial.written := by
  dsimp only [execSelectedCommand]
  split_ifs with h1 h2 h3
  · exact Or.inl rfl
  · exact Or.inl rfl
  · exact Or.inl rfl
  · rcases itemData_cases s.cmdIndex with h | h | h | h | h | h
    · rw [h] at h3
      exact absurd rfl h3
    all_goals
      rw [h]
      exact addsCommand_sendVisca s _ (by decide)

theorem addsCommand_connectOrDisconnect (s : MainWindow) (openOk : Bool) :
    AddsCommand s.serial.written (connectOrDisconnect s openOk).serial.written := by
  dsimp only [connectOrDisconnect]
  split_ifs
  · left
    rw [serial_appendPlainText]
    rfl
  · exact Or.inl rfl
  · exact Or.inl rfl
  · have h := (addsCommand_power (appendPlainText (setConnectedUi
      { s with serial := { s.serial with isOpen := true } } true)
      ("--- Connected " ++ s.portCombo ++ " ---"))).1
    rw [serial_appendPlainText] at h
    exact h

/-- Every function an intent names either leaves the record of writes as it
is or adds one well-formed command to it. -/
theorem addsCommand_perform (s : MainWindow) (i : Intent) :
    AddsCommand s.serial.written (perform s i).serial.written := by
  cases i with
  | powerInquiry => exact (addsCommand_power s).1
  | powerOn => exact (addsCommand_power s).2.1
  | powerOff => exact (addsCommand_power s).2.2
  | powerToggle confirm => exact addsCommand_powerToggle s confirm
  | ptzPressed dx dy => exact (addsCommand_ptz s dx dy).1
  | ptzReleased => exact (addsCommand_ptz s 0 0).2
  | zoomInPressed => exact (addsCommand_zoom s).1
  | zoomOutPressed => exact (addsCommand_zoom s).2.1
  | zoomReleased => exact (addsCommand_zoom s).2.2.1
  | recallPreset n => exact (addsCommand_preset s n).1
  | storePreset n => exact (addsCommand_preset s n).2
  | refocus => exact (addsCommand_zoom s).2.2.2
  | execSelectedCommand => exact addsCommand_execSelectedCommand s
  | connectOrDisconnect openOk => exact addsCommand_connectOrDisconnect s openOk

theorem wellFormed_of_mem_emitted (s : MainWindow) (i : Intent) (c : List Nat)
    (h : c ∈ emitted s i) : WellFormedCommand c := by
  unfold emitted at h
  rcases addsCommand_perform s i with hw | ⟨d, hw, hd⟩
  · rw [hw, List.drop_length] at h
    simp at h
  · rw [hw, List.drop_left] at h
    rw [List.mem_singleton.mp h]
    exact hd
/-- C11: every byte array an intent hands to the transport (power inquiry, on
and off, power toggle, pan/tilt press and release, zoom tele, wide and stop,
preset recall and store, refocus, the selected custom command, the inquiry sent
on connect), for every state, so for every value of the three speed sliders,
and for every argument, is non-empty, has first byte 0x81 and last byte 0xFF;
so has the data of each of the five items of the custom command table. -/
theorem emitted_starts_and_ends (s : MainWindow) (i : Intent) (cmd : List Nat)
    (h : cmd ∈ emitted s i) :
    (cmd ≠ [] ∧ cmd.head? = some 0x81 ∧ cmd.getLast? = some 0xFF)
      ∧ cmdComboItems.length = 5
      ∧ ∀ item ∈ cmdComboItems,
          item.2 ≠ [] ∧ item.2.head? = some 0x81 ∧ item.2.getLast? = some 0xFF := by
  obtain ⟨h1, h2, h3, _⟩ := wellFormed_of_mem_emitted s i cmd h
  exact ⟨⟨h1, h2, h3⟩, rfl, by decide⟩

/-- Instance of C11: the custom command "Pan/Tilt Home", selected in the
command list and executed on an open port. -/
theorem emitted_starts_and_ends_witness :
    ([0x81, 0x01, 0x06, 0x04, 0xFF] ≠ []
        ∧ [0x81, 0x01, 0x06, 0x04, 0xFF].head? = some 0x81
        ∧ [0x81, 0x01, 0x06, 0x04, 0xFF].getLast? = some 0xFF)
      ∧ cmdComboItems.length = 5
      ∧ ∀ item ∈ cmdComboItems,
          item.2 ≠ [] ∧ item.2.head? = some 0x81 ∧ item.2.getLast? = some 0xFF :=
  emitted_starts_and_ends { serial := { isOpen := true }, cmdIndex := 1 }
    Intent.execSelectedCommand [0x81, 0x01, 0x06, 0x04, 0xFF] (by decide)

/-- C12: no byte array an intent hands to the transport is classified as a
power reply: for every state `u` the classification of such an array leaves
`u` untouched with an empty note, so it is neither PowerOn nor PowerOff. -/
theorem emitted_not_power_reply (s : MainWindow) (i : Intent) (cmd : List Nat)
    (h : cmd ∈ emitted s i) (u : MainWindow) :
    classifyFrame u cmd = (u, "")
      ∧ classifyFrame u cmd ≠ (setPowerUi u PowerState.On, "power=On")
      ∧ classifyFrame u cmd ≠ (setPowerUi u PowerState.Off, "power=Off") := by
  obtain ⟨_, h2, _, _⟩ := wellFormed_of_mem_emitted s i cmd h
  have h0 : cmd[0]? = some 0x81 := by
    rw [← List.head?_eq_getElem?]
    exact h2
  have hne : cmd[0]? ≠ some 0x90 := by
    rw [h0]
    decide
  have hc : classifyFrame u cmd = (u, "") :=
    ((classifyFrame_cases u cmd).2.2 (fun hh => hne hh.2.1) (fun hh => hne hh.2.1)).1
  obtain ⟨n1, n2, _⟩ := setPowerUi_note_ne u u PowerState.On
  obtain ⟨_, n4, _⟩ := setPowerUi_note_ne u u PowerState.Off
  rw [hc]
  exact ⟨rfl, Ne.symm n1, Ne.symm n4⟩

/-- Instance of C12: the pan/tilt command for "right" at the default speeds. -/
theorem emitted_not_power_reply_witness :
    classifyFrame {} [0x81, 0x01, 0x06, 0x01, 12, 10, 0x02, 0x03, 0xFF] = ({}, "")
      ∧ classifyFrame {} [0x81, 0x01, 0x06, 0x01, 12, 10, 0x02, 0x03, 0xFF]
          ≠ (setPowerUi {} PowerState.On, "power=On")
      ∧ classifyFrame {} [0x81, 0x01, 0x06, 0x01, 12, 10, 0x02, 0x03, 0xFF]
          ≠ (setPowerUi {} PowerState.Off, "power=Off") :=
  emitted_not_power_reply { serial := { isOpen := true } } (Intent.ptzPressed 1 0)
    [0x81, 0x01, 0x06, 0x01, 12, 10, 0x02, 0x03, 0xFF] (by decide) {}

/-- C20: in every byte array an intent hands to the transport (any direction,
any slider values, any preset index that passes the range check, any item of
the custom command table) 0xFF occurs as the last byte and nowhere else; so,
read into an empty receive buffer, the array comes out of the frame loop as
exactly one frame, equal to it, and the buffer is empty afterwards. -/
theorem emitted_is_one_frame (s : MainWindow) (i : Intent) (cmd : List Nat)
    (h : cmd ∈ emitted s i) (u : MainWindow) (hu : u.rxBuf = []) :
    cmd.getLast? = some 0xFF ∧ 0xFF ∉ cmd.dropLast
      ∧ (onSerialReadyRead u cmd).1 = [cmd] ∧ (onSerialReadyRead u cmd).2.rxBuf = [] := by
  obtain ⟨_, _, h3, h4⟩ := wellFormed_of_mem_emitted s i cmd h
  obtain ⟨pre, hpre⟩ := List.getLast?_eq_some_iff.mp h3
  subst hpre
  rw [List.dropLast_concat] at h4
  refine ⟨h3, by rw [List.dropLast_concat]; exact h4, ?_⟩
  unfold onSerialReadyRead
  rw [processIncomingFrames_of_split _ pre [] h4 (by simp [hu]),
    processIncomingFrames_of_not_mem _ (by rw [rxBuf_handleFrame]; simp), rxBuf_handleFrame]
  exact ⟨rfl, rfl⟩

/-- Instance of C20: the zoom command "tele" at speed 7. -/
theorem emitted_is_one_frame_witness :
    [0x81, 0x01, 0x04, 0x07, 0x27, 0xFF].getLast? = some 0xFF
      ∧ 0xFF ∉ [0x81, 0x01, 0x04, 0x07, 0x27, 0xFF].dropLast
      ∧ (onSerialReadyRead {} [0x81, 0x01, 0x04, 0x07, 0x27, 0xFF]).1
          = [[0x81, 0x01, 0x04, 0x07, 0x27, 0xFF]]
      ∧ (onSerialReadyRead {} [0x81, 0x01, 0x04, 0x07, 0x27, 0xFF]).2.rxBuf = [] :=
  emitted_is_one_frame { serial := { isOpen := true }, zoomSpeed := 7 } Intent.zoomInPressed
    [0x81, 0x01, 0x04, 0x07, 0x27, 0xFF] (by decide) {} rfl

/-! ## Connection lifecycle: what closing and opening change -/

theorem fields_appendPlainText (s : MainWindow) (line : String) :
    (appendPlainText s line).powerState = s.powerState
      ∧ (appendPlainText s line).powerLabel = s.powerLabel
      ∧ (appendPlainText s line).powerButton = s.powerButton
      ∧ (appendPlainText s line).portCombo = s.portCombo := by
  unfold appendPlainText
  cases s.rxView <;> exact ⟨rfl, rfl, rfl, rfl⟩

theorem fields_sendVisca (s : MainWindow) (bytes : List Nat) :
    (sendVisca s bytes).powerState = s.powerState
      ∧ (sendVisca s bytes).powerLabel = s.powerLabel
      ∧ (sendVisca s bytes).powerButton = s.powerButton
      ∧ (sendVisca s bytes).rxBuf = s.rxBuf := by
  unfold sendVisca appendTx appendPlainText
  cases s.rxView <;> cases s.serial.isOpen <;> exact ⟨rfl, rfl, rfl, rfl⟩

/-- None of the three ways to close the connection writes the member
`powerState`. -/
theorem powerState_lifecycle (s : MainWindow) (openOk : Bool) (profile port : String)
    (pan tilt zoom : Int) (err : SerialPortError) :
    (connectOrDisconnect s openOk).powerState = s.powerState
      ∧ (switchProfile s profile pan tilt zoom port).powerState = s.powerState
      ∧ (onSerialError s err port).powerState = s.powerState := by
  refine ⟨?_, ?_, ?_⟩
  · dsimp only [connectOrDisconnect, viscaPowerInquiry]
    split_ifs <;>
      simp only [(fields_sendVisca _ _).1, (fields_appendPlainText _ _).1, setConnectedUi]
  · dsimp only [switchProfile, loadProfileSettings]
    split_ifs <;> simp only [(fields_appendPlainText _ _).1, setConnectedUi]
  · dsimp only [onSerialError]
    split_ifs <;> simp only [(fields_appendPlainText _ _).1, setConnectedUi]

/-- None of the three ways to close the connection, and no way to open it,
touches the receive buffer. -/
theorem rxBuf_lifecycle (s : MainWindow) (openOk : Bool) (profile port : String)
    (pan tilt zoom : Int) (err : SerialPortError) :
    (connectOrDisconnect s openOk).rxBuf = s.rxBuf
      ∧ (switchProfile s profile pan tilt zoom port).rxBuf = s.rxBuf
      ∧ (onSerialError s err port).rxBuf = s.rxBuf := by
  refine ⟨?_, ?_, ?_⟩
  · dsimp only [connectOrDisconnect, viscaPowerInquiry]
    split_ifs <;>
      simp only [(fields_sendVisca _ _).2.2.2, rxBuf_appendPlainText, setConnectedUi]
  · dsimp only [switchProfile, loadProfileSettings]
    split_ifs <;> simp only [rxBuf_appendPlainText, setConnectedUi]
  · dsimp only [onSerialError]
    split_ifs <;> simp only [rxBuf_appendPlainText, setConnectedUi]

/-- Closing an open connection, by any of the three ways, leaves the port
closed and the window showing "Unknown". -/
theorem close_shows_unknown (s : MainWindow) (openOk : Bool) (profile port : String)
    (pan tilt zoom : Int) (err : SerialPortError) (hopen : s.serial.isOpen = true)
    (hprofile : ¬ (profile.isEmpty ∨ profile = s.currentProfile))
    (herr : err ≠ SerialPortError.NoError) :
    ((connectOrDisconnect s openOk).serial.isOpen = false
        ∧ uiShows (connectOrDisconnect s openOk) PowerState.Unknown)
      ∧ ((switchProfile s profile pan tilt zoom port).serial.isOpen = false
        ∧ uiShows (switchProfile s profile pan tilt zoom port) PowerState.Unknown)
      ∧ ((onSerialError s err port).serial.isOpen = false
        ∧ uiShows (onSerialError s err port) PowerState.Unknown) := by
  refine ⟨?_, ?_, ?_⟩
  · dsimp only [connectOrDisconnect, uiShows]
    rw [if_pos hopen]
    simp [serial_appendPlainText, (fields_appendPlainText _ _).2.1,
      (fields_appendPlainText _ _).2.2.1, setConnectedUi]
  · dsimp only [switchProfile, loadProfileSettings, uiShows]
    rw [if_neg hprofile, if_pos hopen]
    simp [serial_appendPlainText, (fields_appendPlainText _ _).2.1,
      (fields_appendPlainText _ _).2.2.1, setConnectedUi]
  · dsimp only [onSerialError, uiShows]
    rw [if_neg herr, if_pos hopen]
    simp [serial_appendPlainText, (fields_appendPlainText _ _).2.1,
      (fields_appendPlainText _ _).2.2.1, setConnectedUi]

/-- A successful open from the closed state: the port is open, and the power
inquiry is the one byte array written. -/
theorem open_writes_inquiry (s : MainWindow) (hclosed : s.serial.isOpen = false)
    (hport : s.portCombo ≠ "") :
    (connectOrDisconnect s true).serial.isOpen = true
      ∧ (connectOrDisconnect s true).serial.written
          = s.serial.written ++ [[0x81, 0x09, 0x04, 0x00, 0xFF]] := by
  have hempty : s.portCombo.isEmpty = false := by
    cases h : s.portCombo.isEmpty
    · rfl
    · exact absurd ((String.isEmpty_iff _).mp h) hport
  have h1 : fromHex "81090400FF" = [0x81, 0x09, 0x04, 0x00, 0xFF] := by decide
  dsimp only [connectOrDisconnect, viscaPowerInquiry]
  simp only [hclosed, hempty, Bool.false_eq_true, if_false, Bool.not_true]
  have ho : (appendPlainText (setConnectedUi
      { s with serial := { s.serial with isOpen := true } } true)
      ("--- Connected " ++ s.portCombo ++ " ---")).serial.isOpen = true := by
    rw [serial_appendPlainText]
    rfl
  refine ⟨by rw [isOpen_sendVisca, ho], ?_⟩
  rw [written_sendVisca _ _ ho, serial_appendPlainText, h1]
  rfl

/-! ## Reads on concrete buffers -/

theorem onSerialReadyRead_of_not_mem (u : MainWindow) (data : List Nat)
    (h : 0xFF ∉ u.rxBuf ++ data) :
    onSerialReadyRead u data = ([], { u with rxBuf := u.rxBuf ++ data }) := by
  unfold onSerialReadyRead
  rw [processIncomingFrames_of_not_mem _ h]

theorem onSerialReadyRead_one_frame (u : MainWindow) (data pre : List Nat)
    (hb : u.rxBuf ++ data = pre ++ [0xFF]) (h : 0xFF ∉ pre) :
    onSerialReadyRead u data
      = ([pre ++ [0xFF]], handleFrame { u with rxBuf := [] } (pre ++ [0xFF])) := by
  unfold onSerialReadyRead
  rw [processIncomingFrames_of_split _ pre [] h hb,
    processIncomingFrames_of_not_mem _ (by rw [rxBuf_handleFrame]; simp)]

theorem staleSession_eq :
    staleSession
      = connectOrDisconnect
          { connectOrDisconnect { portCombo := "COM_TEST" } true with rxBuf := [0x90, 0x50] }
          false := by
  unfold staleSession
  rw [onSerialReadyRead_of_not_mem _ _ (by decide)]
  rfl

theorem poweredSession_eq :
    poweredSession
      = handleFrame { connectOrDisconnect { portCombo := "COM_TEST" } true with rxBuf := [] }
          [0x90, 0x50, 0x02, 0xFF] := by
  unfold poweredSession
  rw [onSerialReadyRead_one_frame _ _ [0x90, 0x50, 0x02] rfl (by decide)]
  rfl

/-- C13, evaluated on the code: in a session in which the camera has reported
"on" (`powerState` is `On`), each of the three ways to close the connection
(the operator disconnects, a profile switch, a transport error) closes the
port and makes the window show "Unknown", and leaves the member `powerState`
at `On`. -/
theorem powerState_not_reset_on_close :
    poweredSession.serial.isOpen = true ∧ poweredSession.powerState = PowerState.On
      ∧ ((connectOrDisconnect poweredSession false).serial.isOpen = false
        ∧ (connectOrDisconnect poweredSession false).powerLabel = "Power: Unknown"
        ∧ (connectOrDisconnect poweredSession false).powerState = PowerState.On)
      ∧ ((switchProfile poweredSession "Studio" 12 10 3 "COM_TEST").serial.isOpen = false
        ∧ (switchProfile poweredSession "Studio" 12 10 3 "COM_TEST").powerLabel
            = "Power: Unknown"
        ∧ (switchProfile poweredSession "Studio" 12 10 3 "COM_TEST").powerState
            = PowerState.On)
      ∧ ((onSerialError poweredSession SerialPortError.ResourceError "").serial.isOpen = false
        ∧ (onSerialError poweredSession SerialPortError.ResourceError "").powerLabel
            = "Power: Unknown"
        ∧ (onSerialError poweredSession SerialPortError.ResourceError "").powerState
            = PowerState.On) := by
  rw [poweredSession_eq]
  decide

/-- C14, refuted as stated: the partial frame `90 50` buffered when the operator
disconnects is still in the buffer after the close and after the next
successful open, and the first frame produced after that open, `90 50 02 FF`,
begins with those two bytes. -/
theorem partial_frame_survives_reconnect :
    staleSession.serial.isOpen = false ∧ staleSession.rxBuf = [0x90, 0x50]
      ∧ (connectOrDisconnect staleSession true).serial.isOpen = true
      ∧ (connectOrDisconnect staleSession true).rxBuf = [0x90, 0x50]
      ∧ (onSerialReadyRead (connectOrDisconnect staleSession true) [0x02, 0xFF]).1
          = [[0x90, 0x50, 0x02, 0xFF]]
      ∧ (onSerialReadyRead (connectOrDisconnect staleSession true) [0x02, 0xFF]).2.powerState
          = PowerState.On := by
  have hbuf : (connectOrDisconnect staleSession true).rxBuf = [0x90, 0x50] := by
    rw [staleSession_eq]
    decide
  rw [onSerialReadyRead_one_frame _ _ [0x90, 0x50, 0x02] (by rw [hbuf]; rfl) (by decide)]
  rw [staleSession_eq]
  decide

/-- The frames the loop cuts off, and the bytes it leaves, depend on the
receive buffer only. -/
theorem processIncomingFrames_congr (n : Nat) :
    ∀ s u : MainWindow, s.rxBuf.length = n → s.rxBuf = u.rxBuf →
      (processIncomingFrames s).1 = (processIncomingFrames u).1
        ∧ (processIncomingFrames s).2.rxBuf = (processIncomingFrames u).2.rxBuf := by
  induction n using Nat.strong_induction_on with
  | _ n ih =>
    intro s u hn hsu
    by_cases hm : 0xFF ∈ s.rxBuf
    · obtain ⟨pre, rest, hb, hpre⟩ := List.eq_append_cons_of_mem hm
      have hlt : rest.length < n := by
        rw [← hn, hb, List.length_append, List.length_cons]
        omega
      obtain ⟨h1, h2⟩ := ih rest.length hlt
        (handleFrame { s with rxBuf := rest } (pre ++ [0xFF]))
        (handleFrame { u with rxBuf := rest } (pre ++ [0xFF]))
        (by rw [rxBuf_handleFrame]) (by rw [rxBuf_handleFrame, rxBuf_handleFrame])
      rw [processIncomingFrames_of_split s pre rest hpre hb,
        processIncomingFrames_of_split u pre rest hpre (hsu ▸ hb)]
      exact ⟨by rw [h1], h2⟩
    · rw [processIncomingFrames_of_not_mem s hm,
        processIncomingFrames_of_not_mem u (hsu ▸ hm)]
      exact ⟨rfl, hsu⟩

/-- C14, amended: closing the connection (by the operator, by a profile switch
or after a transport error) and opening it leave the receive buffer as it is.
A partial frame buffered at the close is still buffered after the close and
after the next open, so a read after any two such steps cuts off the frames,
and leaves the bytes, that it would have cut off and left without them: the
bytes received before the close are part of the first frame produced after
the open. -/
theorem rxBuf_kept_across_reconnect (s : MainWindow) (first second : Bool) (data : List Nat)
    (profile port : String) (pan tilt zoom : Int) (err : SerialPortError) :
    (connectOrDisconnect s first).rxBuf = s.rxBuf
      ∧ (switchProfile s profile pan tilt zoom port).rxBuf = s.rxBuf
      ∧ (onSerialError s err port).rxBuf = s.rxBuf
      ∧ (connectOrDisconnect (connectOrDisconnect s first) second).rxBuf = s.rxBuf
      ∧ (onSerialReadyRead (connectOrDisconnect (connectOrDisconnect s first) second) data).1
          = (onSerialReadyRead s data).1
      ∧ (onSerialReadyRead (connectOrDisconnect (connectOrDisconnect s first) second)
            data).2.rxBuf
          = (onSerialReadyRead s data).2.rxBuf := by
  have h1 : (connectOrDisconnect s first).rxBuf = s.rxBuf :=
    (rxBuf_lifecycle s first "" "" 0 0 0 SerialPortError.NoError).1
  have h2 : (connectOrDisconnect (connectOrDisconnect s first) second).rxBuf = s.rxBuf := by
    rw [(rxBuf_lifecycle _ second "" "" 0 0 0 SerialPortError.NoError).1, h1]
  refine ⟨h1, (rxBuf_lifecycle s first profile port pan tilt zoom err).2.1,
    (rxBuf_lifecycle s first profile port pan tilt zoom err).2.2, h2, ?_⟩
  unfold onSerialReadyRead
  exact processIncomingFrames_congr _ _ _ rfl (by simp only [h2])

/-- C16, refuted as stated: `staleSession` is disconnected with the port
"COM_TEST" selected; a successful open writes the power inquiry and nothing
else, and when the bytes `90 50 02 FF` are then received the power state is
still `Unknown`, because the frame cut off is `90 50 90 50 02 FF`. -/
theorem connect_scenario_with_stale_bytes :
    staleSession.serial.isOpen = false ∧ staleSession.portCombo = "COM_TEST"
      ∧ emitted staleSession (Intent.connectOrDisconnect true) = [[0x81, 0x09, 0x04, 0x00, 0xFF]]
      ∧ (onSerialReadyRead (connectOrDisconnect staleSession true)
            [0x90, 0x50, 0x02, 0xFF]).1 = [[0x90, 0x50, 0x90, 0x50, 0x02, 0xFF]]
      ∧ (onSerialReadyRead (connectOrDisconnect staleSession true)
            [0x90, 0x50, 0x02, 0xFF]).2.powerState = PowerState.Unknown
      ∧ (onSerialReadyRead (connectOrDisconnect staleSession true)
            [0x90, 0x50, 0x02, 0xFF]).2.powerState ≠ PowerState.On := by
  have hbuf : (connectOrDisconnect staleSession true).rxBuf = [0x90, 0x50] := by
    rw [staleSession_eq]
    decide
  rw [onSerialReadyRead_one_frame _ _ [0x90, 0x50, 0x90, 0x50, 0x02] (by rw [hbuf]; rfl)
    (by decide)]
  rw [staleSession_eq]
  decide

/-- The classification in the loop follows the reply the frame is. -/
theorem classifyFrame_replyOf (s : MainWindow) (f : List Nat) :
    classifyFrame s f
      = match replyOf f with
        | some PowerState.On => (setPowerUi s PowerState.On, "power=On")
        | some PowerState.Off => (setPowerUi s PowerState.Off, "power=Off")
        | _ => (s, "") := by
  obtain ⟨hon, hoff, hnone⟩ := classifyFrame_cases s f
  unfold replyOf
  split_ifs with h1 h2
  · exact hon.mpr h1
  · exact hoff.mpr h2
  · exact (hnone h1 h2).1

theorem powerState_appendRx (s : MainWindow) (f : List Nat) (note : String) :
    (appendRx s f note).powerState = s.powerState := by
  unfold appendRx
  split_ifs <;> exact (fields_appendPlainText _ _).1

/-- One iteration of the loop sets the power state to the reply the frame is,
and keeps it for a frame that is no power reply. -/
theorem powerState_handleFrame (s : MainWindow) (f : List Nat) :
    (handleFrame s f).powerState = (replyOf f).getD s.powerState := by
  unfold handleFrame
  rw [powerState_appendRx, classifyFrame_replyOf]
  have hnever : replyOf f ≠ some PowerState.Unknown := by
    unfold replyOf
    split_ifs <;> simp
  cases h : replyOf f with
  | none => rfl
  | some p =>
    cases p with
    | Unknown => exact absurd h hnever
    | On => rfl
    | Off => rfl

theorem powerState_read_reply (u : MainWindow) (hu : u.rxBuf = []) :
    (onSerialReadyRead u [0x90, 0x50, 0x02, 0xFF]).2.powerState = PowerState.On
      ∧ (onSerialReadyRead u [0x90, 0x50, 0x03, 0xFF]).2.powerState = PowerState.Off := by
  rw [onSerialReadyRead_one_frame u _ [0x90, 0x50, 0x02] (by rw [hu]; rfl) (by decide),
    onSerialReadyRead_one_frame u _ [0x90, 0x50, 0x03] (by rw [hu]; rfl) (by decide)]
  simp only [powerState_handleFrame]
  exact ⟨rfl, rfl⟩

/-- C16, amended: starting disconnected with a non-empty selected port and an
empty receive buffer, a successful open writes exactly one command, the power
inquiry `81 09 04 00 FF`, and nothing else; if the bytes `90 50 02 FF` are then
received, in one read or in any fragmentation, the power state is `On` after
the read is processed, and `Off` for `90 50 03 FF`. -/
theorem connect_scenario (s : MainWindow) (chunks : List (List Nat))
    (hclosed : s.serial.isOpen = false) (hport : s.portCombo ≠ "") (hbuf : s.rxBuf = []) :
    (connectOrDisconnect s true).serial.written
        = s.serial.written ++ [[0x81, 0x09, 0x04, 0x00, 0xFF]]
      ∧ (onSerialReadyRead (connectOrDisconnect s true) [0x90, 0x50, 0x02, 0xFF]).2.powerState
          = PowerState.On
      ∧ (onSerialReadyRead (connectOrDisconnect s true) [0x90, 0x50, 0x03, 0xFF]).2.powerState
          = PowerState.Off
      ∧ (chunks.flatten = [0x90, 0x50, 0x02, 0xFF] →
          (readChunks (connectOrDisconnect s true) chunks).2.powerState = PowerState.On)
      ∧ (chunks.flatten = [0x90, 0x50, 0x03, 0xFF] →
          (readChunks (connectOrDisconnect s true) chunks).2.powerState = PowerState.Off) := by
  have hb : (connectOrDisconnect s true).rxBuf = [] := by
    rw [(rxBuf_lifecycle s true "" "" 0 0 0 SerialPortError.NoError).1, hbuf]
  obtain ⟨hon, hoff⟩ := powerState_read_reply _ hb
  have hchunks := readChunks_eq chunks (connectOrDisconnect s true) (by rw [hb]; decide)
  refine ⟨(open_writes_inquiry s hclosed hport).2, hon, hoff, ?_, ?_⟩
  · intro hc
    rw [hchunks, hc]
    exact hon
  · intro hc
    rw [hchunks, hc]
    exact hoff

/-- Instance of the amended C16: the first connect after construction, with the
port "COM_TEST" selected, and the reply arriving in two pieces. -/
theorem connect_scenario_witness :
    (connectOrDisconnect { portCombo := "COM_TEST" } true).serial.written
        = [[0x81, 0x09, 0x04, 0x00, 0xFF]]
      ∧ (onSerialReadyRead (connectOrDisconnect { portCombo := "COM_TEST" } true)
            [0x90, 0x50, 0x02, 0xFF]).2.powerState = PowerState.On
      ∧ (readChunks (connectOrDisconnect { portCombo := "COM_TEST" } true)
            [[0x90], [0x50, 0x02, 0xFF]]).2.powerState = PowerState.On :=
  ⟨(connect_scenario { portCombo := "COM_TEST" } [[0x90], [0x50, 0x02, 0xFF]] rfl
      (by decide) rfl).1,
    (connect_scenario { portCombo := "COM_TEST" } [[0x90], [0x50, 0x02, 0xFF]] rfl
      (by decide) rfl).2.1,
    (connect_scenario { portCombo := "COM_TEST" } [[0x90], [0x50, 0x02, 0xFF]] rfl
      (by decide) rfl).2.2.2.1 rfl⟩

/-! ## Power toggle -/

/-- C19: on an open port, when the window shows a power state that is not `On`
(`Unknown` or `Off`), `powerToggle` writes `81 01 04 00 02 FF` and sets the
power state to `On` in the same step; when it shows `On` and the operator
confirms, it writes `81 01 04 00 03 FF` and sets the power state to `Off` in
the same step; when the operator declines, the state is left as it is, so
nothing is written. The step never reads or changes the receive buffer: no
reply is awaited. -/
theorem powerToggle_optimistic (s : MainWindow) (confirm : Bool)
    (hopen : s.serial.isOpen = true) :
    (uiShows s PowerState.Unknown ∨ uiShows s PowerState.Off →
        (powerToggle s confirm).serial.written
            = s.serial.written ++ [[0x81, 0x01, 0x04, 0x00, 0x02, 0xFF]]
          ∧ (powerToggle s confirm).powerState = PowerState.On
          ∧ uiShows (powerToggle s confirm) PowerState.On)
      ∧ (uiShows s PowerState.On →
          ((powerToggle s true).serial.written
              = s.serial.written ++ [[0x81, 0x01, 0x04, 0x00, 0x03, 0xFF]]
            ∧ (powerToggle s true).powerState = PowerState.Off
            ∧ uiShows (powerToggle s true) PowerState.Off)
          ∧ powerToggle s false = s)
      ∧ (powerToggle s confirm).rxBuf = s.rxBuf := by
  have h2 : fromHex "8101040002FF" = [0x81, 0x01, 0x04, 0x00, 0x02, 0xFF] := by decide
  have h3 : fromHex "8101040003FF" = [0x81, 0x01, 0x04, 0x00, 0x03, 0xFF] := by decide
  have hno : containsCaseInsensitive "Power On" "Off" = false := by decide
  have hyes : containsCaseInsensitive "Power Off" "Off" = true := by decide
  refine ⟨fun hshown => ?_, fun hshown => ?_, ?_⟩
  · have hbutton : s.powerButton = "Power On" := by
      rcases hshown with h | h
      · exact h.2
      · exact h.2
    have hstep : powerToggle s confirm = setPowerUi (viscaPowerOn s) PowerState.On := by
      unfold powerToggle
      simp [hopen, hbutton, hno]
    rw [hstep, serial_setPowerUi]
    unfold viscaPowerOn
    rw [written_sendVisca _ _ hopen, h2]
    exact ⟨rfl, rfl, rfl, rfl⟩
  · have hstep : powerToggle s true = setPowerUi (viscaPowerOff s) PowerState.Off := by
      unfold powerToggle
      simp [hopen, hshown.2, hyes]
    have hkeep : powerToggle s false = s := by
      unfold powerToggle
      simp [hopen, hshown.2, hyes]
    rw [hstep, serial_setPowerUi]
    unfold viscaPowerOff
    rw [written_sendVisca _ _ hopen, h3]
    exact ⟨⟨rfl, rfl, rfl, rfl⟩, hkeep⟩
  · unfold powerToggle viscaPowerOn viscaPowerOff
    cases containsCaseInsensitive s.powerButton "Off" <;> cases confirm <;>
      simp [hopen, rxBuf_setPowerUi, (fields_sendVisca _ _).2.2.2]

/-- Instance of C19: right after a connect the window shows `Unknown` and the
toggle switches the camera on; in the session in which the camera has reported
"on" the confirmed toggle switches it off and the declined one does nothing. -/
theorem powerToggle_optimistic_witness :
    ((powerToggle (connectOrDisconnect { portCombo := "COM_TEST" } true) false).serial.written
          = (connectOrDisconnect { portCombo := "COM_TEST" } true).serial.written
              ++ [[0x81, 0x01, 0x04, 0x00, 0x02, 0xFF]]
        ∧ (powerToggle (connectOrDisconnect { portCombo := "COM_TEST" } true) false).powerState
          = PowerState.On
        ∧ uiShows (powerToggle (connectOrDisconnect { portCombo := "COM_TEST" } true) false)
            PowerState.On)
      ∧ ((powerToggle poweredSession true).serial.written
            = poweredSession.serial.written ++ [[0x81, 0x01, 0x04, 0x00, 0x03, 0xFF]]
          ∧ (powerToggle poweredSession true).powerState = PowerState.Off
          ∧ uiShows (powerToggle poweredSession true) PowerState.Off)
        ∧ powerToggle poweredSession false = poweredSession :=
  ⟨(powerToggle_optimistic (connectOrDisconnect { portCombo := "COM_TEST" } true) false
      (by decide)).1 (Or.inl (by decide)),
    (powerToggle_optimistic poweredSession true (by rw [poweredSession_eq]; decide)).2.1
      (by rw [poweredSession_eq]; decide)⟩

/-! ## The frame loop as a fold over its frames -/

theorem foldl_handleFrame_rxBuf (fs : List (List Nat)) :
    ∀ (u : MainWindow) (b : List Nat),
      fs.foldl handleFrame { u with rxBuf := b } = { fs.foldl handleFrame u with rxBuf := b } := by
  induction fs with
  | nil => intro u b; rfl
  | cons f fs ih =>
    intro u b
    rw [List.foldl_cons, List.foldl_cons, handleFrame_rxBuf, ih]

/-- When the loop is left, the state is the state it started from with every
frame handled in order, and with the leftover as receive buffer. -/
theorem processIncomingFrames_fold (n : Nat) :
    ∀ s : MainWindow, s.rxBuf.length = n →
      (processIncomingFrames s).2
        = { (processIncomingFrames s).1.foldl handleFrame s with
            rxBuf := (processIncomingFrames s).2.rxBuf } := by
  induction n using Nat.strong_induction_on with
  | _ n ih =>
    intro s hn
    by_cases hm : 0xFF ∈ s.rxBuf
    · obtain ⟨pre, rest, hb, hpre⟩ := List.eq_append_cons_of_mem hm
      have hlt : rest.length < n := by
        rw [← hn, hb, List.length_append, List.length_cons]
        omega
      have hih := ih rest.length hlt
        (handleFrame { s with rxBuf := rest } (pre ++ [0xFF])) (by rw [rxBuf_handleFrame])
      rw [processIncomingFrames_of_split s pre rest hpre hb]
      simp only [List.foldl_cons]
      rw [handleFrame_rxBuf, foldl_handleFrame_rxBuf] at hih
      rw [handleFrame_rxBuf]
      exact hih
    · rw [processIncomingFrames_of_not_mem s hm]
      rfl

theorem powerState_foldl_handleFrame (fs : List (List Nat)) :
    ∀ s : MainWindow, (fs.foldl handleFrame s).powerState
      = fs.foldl (fun q f => (replyOf f).getD q) s.powerState := by
  induction fs with
  | nil => intro s; rfl
  | cons f fs ih =>
    intro s
    rw [List.foldl_cons, List.foldl_cons, ih, powerState_handleFrame]

theorem foldl_getD_eq_getLast (g : List Nat → Option PowerState) (fs : List (List Nat)) :
    ∀ q : PowerState, fs.foldl (fun q f => (g f).getD q) q
      = ((fs.filterMap g).getLast?).getD q := by
  induction fs with
  | nil => intro q; rfl
  | cons f fs ih =>
    intro q
    rw [List.foldl_cons, ih]
    cases h : g f with
    | none => rw [List.filterMap_cons_none h]; rfl
    | some p =>
      rw [List.filterMap_cons_some h, List.getLast?_cons]
      cases (List.filterMap g fs).getLast? <;> rfl

/-- C15: for every buffer the frame loop processes and every prior power state,
the power state afterwards is the reply of the last frame that is a power
reply: `On` when that frame is a PowerOn frame, `Off` when it is a PowerOff
frame, and the prior state when no frame is a power reply. Frames that are no
power reply, and the unterminated leftover, do not enter into it. A frame is a
PowerOn or PowerOff frame exactly when the loop classifies it so. -/
theorem powerState_after_loop (s : MainWindow) :
    (processIncomingFrames s).2.powerState
        = (((processIncomingFrames s).1.filterMap replyOf).getLast?).getD s.powerState
      ∧ ((∀ f ∈ (processIncomingFrames s).1, replyOf f = none) →
          (processIncomingFrames s).2.powerState = s.powerState)
      ∧ (∀ (f : List Nat) (u : MainWindow),
          (replyOf f = some PowerState.On
              ↔ classifyFrame u f = (setPowerUi u PowerState.On, "power=On"))
            ∧ (replyOf f = some PowerState.Off
              ↔ classifyFrame u f = (setPowerUi u PowerState.Off, "power=Off"))
            ∧ (replyOf f = none ↔ classifyFrame u f = (u, ""))) := by
  have hmain : (processIncomingFrames s).2.powerState
      = (((processIncomingFrames s).1.filterMap replyOf).getLast?).getD s.powerState := by
    rw [processIncomingFrames_fold _ s rfl]
    show ((processIncomingFrames s).1.foldl handleFrame s).powerState = _
    rw [powerState_foldl_handleFrame, foldl_getD_eq_getLast]
  refine ⟨hmain, fun hnone => ?_, fun f u => ?_⟩
  · rw [hmain]
    have hnil : (processIncomingFrames s).1.filterMap replyOf = [] := by
      rw [List.filterMap_eq_nil_iff]
      exact hnone
    rw [hnil]
    rfl
  · obtain ⟨n1, n2, n3⟩ := setPowerUi_note_ne u u PowerState.On
    obtain ⟨_, n4, _⟩ := setPowerUi_note_ne u u PowerState.Off
    have hnever : replyOf f ≠ some PowerState.Unknown := by
      unfold replyOf
      split_ifs <;> simp
    rw [classifyFrame_replyOf]
    cases h : replyOf f with
    | none => simp [Ne.symm n1, Ne.symm n4]
    | some p =>
      cases p with
      | Unknown => exact absurd h hnever
      | On => simp [n1, n3]
      | Off => simp [n4, Ne.symm n3]

/-- Instance of C15: in the buffer `90 50 02 FF 41 FF 90 50 03 FF 42 FF 90 50`
the last power reply is the PowerOff frame, whatever follows it; in the buffer
`41 FF 90 50` no frame is a power reply. -/
theorem powerState_after_loop_witness :
    (processIncomingFrames
        { rxBuf := [0x90, 0x50, 0x02, 0xFF, 0x41, 0xFF, 0x90, 0x50, 0x03, 0xFF, 0x42, 0xFF,
            0x90, 0x50],
          powerState := PowerState.Unknown }).2.powerState = PowerState.Off
      ∧ (processIncomingFrames
          { rxBuf := [0x41, 0xFF, 0x90, 0x50], powerState := PowerState.On }).2.powerState
        = PowerState.On := by
  constructor
  · rw [(powerState_after_loop _).1,
      processIncomingFrames_of_split _ [0x90, 0x50, 0x02] _ (by decide) rfl,
      processIncomingFrames_of_split _ [0x41] _ (by decide) ((rxBuf_handleFrame _ _).trans rfl),
      processIncomingFrames_of_split _ [0x90, 0x50, 0x03] _ (by decide)
        ((rxBuf_handleFrame _ _).trans rfl),
      processIncomingFrames_of_split _ [0x42] _ (by decide) ((rxBuf_handleFrame _ _).trans rfl),
      processIncomingFrames_of_not_mem _ (by rw [rxBuf_handleFrame]; decide)]
    decide
  · apply (powerState_after_loop _).2.1
    rw [processIncomingFrames_of_split _ [0x41] _ (by decide) rfl,
      processIncomingFrames_of_not_mem _ (by rw [rxBuf_handleFrame]; decide)]
    decide

/-! ## The log of received frames -/

theorem rxView_appendPlainText (s : MainWindow) (line : String) :
    (appendPlainText s line).rxView = s.rxView.map (fun ls => ls ++ [line]) := by
  unfold appendPlainText
  cases h : s.rxView <;> simp [h]

theorem rxView_setPowerUi (s : MainWindow) (p : PowerState) :
    (setPowerUi s p).rxView = s.rxView := by
  cases p <;> rfl

/-- One iteration of the loop appends the line of its frame to the view. -/
theorem rxView_handleFrame (s : MainWindow) (f : List Nat) :
    (handleFrame s f).rxView = s.rxView.map (fun ls => ls ++ [rxLine f]) := by
  have hnever : replyOf f ≠ some PowerState.Unknown := by
    unfold replyOf
    split_ifs <;> simp
  unfold handleFrame rxLine
  rw [classifyFrame_replyOf]
  cases h : replyOf f with
  | none =>
    simp only [appendRx]
    rw [if_pos (by decide), rxView_appendPlainText]
  | some p =>
    cases p with
    | Unknown => exact absurd h hnever
    | On =>
      simp only [appendRx]
      rw [if_neg (by decide), rxView_appendPlainText, rxView_setPowerUi]
    | Off =>
      simp only [appendRx]
      rw [if_neg (by decide), rxView_appendPlainText, rxView_setPowerUi]

theorem rxView_foldl_handleFrame (fs : List (List Nat)) :
    ∀ s : MainWindow, (fs.foldl handleFrame s).rxView
      = s.rxView.map (fun ls => ls ++ fs.map rxLine) := by
  induction fs with
  | nil =>
    intro s
    cases h : s.rxView <;> simp [h]
  | cons f fs ih =>
    intro s
    rw [List.foldl_cons, ih, rxView_handleFrame]
    cases h : s.rxView <;> simp

theorem string_append_cancel (a b d : String) (h : a ++ b = a ++ d) : b = d := by
  have h2 := congrArg String.data h
  rw [String.data_append, String.data_append] at h2
  exact String.ext (List.append_cancel_left h2)

/-- The three forms of a line differ, so the form of a line tells the reply. -/
theorem rxLine_form (f : List Nat) :
    (rxLine f = "RX: " ++ toHexSpaced f ++ "    // " ++ "power=On"
        ↔ replyOf f = some PowerState.On)
      ∧ (rxLine f = "RX: " ++ toHexSpaced f ++ "    // " ++ "power=Off"
        ↔ replyOf f = some PowerState.Off)
      ∧ (rxLine f = "RX: " ++ toHexSpaced f ↔ replyOf f = none) := by
  have hnever : replyOf f ≠ some PowerState.Unknown := by
    unfold replyOf
    split_ifs <;> simp
  have d1 : "RX: " ++ toHexSpaced f ++ "    // " ++ "power=On"
      ≠ "RX: " ++ toHexSpaced f ++ "    // " ++ "power=Off" := fun h =>
    absurd (string_append_cancel _ _ _ h) (by decide)
  have d2 : "RX: " ++ toHexSpaced f ++ "    // " ++ "power=On" ≠ "RX: " ++ toHexSpaced f := by
    intro h
    rw [String.append_assoc ("RX: " ++ toHexSpaced f)] at h
    have h3 := string_append_cancel _ _ "" (h.trans (String.append_empty _).symm)
    exact absurd h3 (by decide)
  have d3 : "RX: " ++ toHexSpaced f ++ "    // " ++ "power=Off" ≠ "RX: " ++ toHexSpaced f := by
    intro h
    rw [String.append_assoc ("RX: " ++ toHexSpaced f)] at h
    have h3 := string_append_cancel _ _ "" (h.trans (String.append_empty _).symm)
    exact absurd h3 (by decide)
  unfold rxLine
  cases h : replyOf f with
  | none => simp [Ne.symm d2, Ne.symm d3]
  | some p =>
    cases p with
    | Unknown => exact absurd h hnever
    | On => simp [d1, d2]
    | Off => simp [Ne.symm d1, d3]

/-- C18: no received frame is dropped silently. With the response view in
place, the frame loop appends to it exactly one line per frame it cuts off, in
the order of the frames in the stream; the line of a frame is `RX: ` and its
bytes, followed by the note `power=On` or `power=Off` if and only if the frame
is a PowerOn or PowerOff frame, and by nothing for every other frame; the loop
goes on with the frames that follow a frame without note. -/
theorem rx_log_after_loop (s : MainWindow) (ls : List String) (hview : s.rxView = some ls) :
    (processIncomingFrames s).2.rxView = some (ls ++ (processIncomingFrames s).1.map rxLine)
      ∧ ((processIncomingFrames s).1.map rxLine).length = (processIncomingFrames s).1.length
      ∧ (processIncomingFrames s).1.flatten ++ (processIncomingFrames s).2.rxBuf = s.rxBuf
      ∧ 0xFF ∉ (processIncomingFrames s).2.rxBuf
      ∧ ∀ f : List Nat,
          (rxLine f = "RX: " ++ toHexSpaced f ++ "    // " ++ "power=On"
              ↔ replyOf f = some PowerState.On)
            ∧ (rxLine f = "RX: " ++ toHexSpaced f ++ "    // " ++ "power=Off"
              ↔ replyOf f = some PowerState.Off)
            ∧ (rxLine f = "RX: " ++ toHexSpaced f ↔ replyOf f = none) := by
  obtain ⟨h1, _, h3⟩ := processIncomingFrames_split s.rxBuf.length s rfl
  refine ⟨?_, List.length_map _ _, h1, h3, rxLine_form⟩
  rw [processIncomingFrames_fold _ s rfl]
  show ((processIncomingFrames s).1.foldl handleFrame s).rxView = _
  rw [rxView_foldl_handleFrame, hview]
  rfl

/-- Instance of C18: the buffer `41 FF 90 50 02 FF 42 FF 43` gives three lines,
the second with the note; the frame `41 FF` without note does not stop the
loop. -/
theorem rx_log_after_loop_witness :
    (processIncomingFrames
        { rxBuf := [0x41, 0xFF, 0x90, 0x50, 0x02, 0xFF, 0x42, 0xFF, 0x43] }).2.rxView
      = some ["RX: 41 FF", "RX: 90 50 02 FF    // power=On", "RX: 42 FF"] := by
  rw [(rx_log_after_loop
      { rxBuf := [0x41, 0xFF, 0x90, 0x50, 0x02, 0xFF, 0x42, 0xFF, 0x43] } [] rfl).1,
    processIncomingFrames_of_split _ [0x41] _ (by decide) rfl,
    processIncomingFrames_of_split _ [0x90, 0x50, 0x02] _ (by decide)
      ((rxBuf_handleFrame _ _).trans rfl),
    processIncomingFrames_of_split _ [0x42] _ (by decide) ((rxBuf_handleFrame _ _).trans rfl),
    processIncomingFrames_of_not_mem _ (by rw [rxBuf_handleFrame]; decide)]
  decide

/-! ## Hexadecimal rendering -/

set_option maxRecDepth 100000 in
theorem hexField_table :
    ∀ b, b < 256 → hexField b = String.mk (hexPair b ++ [' '])
      ∧ (hexPair b).map hexVal = [some (b / 16), some (b % 16)] := by
  decide

theorem hexDigitUpper_table :
    ∀ n, n < 16 → (hexDigitUpper n).isWhitespace = false
      ∧ hexDigitUpper n ∈ "0123456789ABCDEF".data := by
  decide

theorem foldl_hexField (bytes : List Nat) :
    ∀ (b : Nat) (acc : String), (∀ x ∈ b :: bytes, x < 256) →
      (b :: bytes).foldl (fun s x => s ++ hexField x) acc
        = acc ++ String.mk (spacedHexChars (b :: bytes) ++ [' ']) := by
  induction bytes with
  | nil =>
    intro b acc h
    rw [List.foldl_cons, List.foldl_nil, (hexField_table b (h b (by simp))).1]
    rfl
  | cons next rest ih =>
    intro b acc h
    rw [List.foldl_cons, ih next _ (fun x hx => h x (List.mem_cons_of_mem _ hx)),
      (hexField_table b (h b (by simp))).1, String.append_assoc]
    congr 1

theorem spacedHexChars_ends (bytes : List Nat) :
    ∀ b : Nat, ∃ first init last, spacedHexChars (b :: bytes) = first :: init
      ∧ spacedHexChars (b :: bytes) = (first :: init).dropLast ++ [last]
      ∧ first = hexDigitUpper (b / 16)
      ∧ ∃ e ∈ b :: bytes, last = hexDigitUpper (e % 16) := by
  induction bytes with
  | nil =>
    intro b
    exact ⟨_, _, hexDigitUpper (b % 16), rfl, rfl, rfl, b, by simp, rfl⟩
  | cons next rest ih =>
    intro b
    obtain ⟨first, init, last, h1, h2, _, e, he, hlast⟩ := ih next
    refine ⟨hexDigitUpper (b / 16),
      hexDigitUpper (b % 16) :: ' ' :: spacedHexChars (next :: rest), last, rfl, ?_, rfl,
      e, List.mem_cons_of_mem _ he, hlast⟩
    show hexPair b ++ ' ' :: spacedHexChars (next :: rest) = _
    rw [h1] at h2 ⊢
    conv_lhs => rw [h2]
    simp [hexPair]

theorem trimmed_spacedHexChars (bytes : List Nat) (b : Nat) (h : ∀ x ∈ b :: bytes, x < 256) :
    trimmed (String.mk (spacedHexChars (b :: bytes) ++ [' ']))
      = String.mk (spacedHexChars (b :: bytes)) := by
  obtain ⟨first, init, last, h1, h2, hfirst, e, he, hlast⟩ := spacedHexChars_ends bytes b
  have hb : b < 256 := h b (by simp)
  have hf : first.isWhitespace = false := by
    rw [hfirst]
    exact (hexDigitUpper_table (b / 16) (by omega)).1
  have hl : last.isWhitespace = false := by
    rw [hlast]
    exact (hexDigitUpper_table (e % 16) (by omega)).1
  unfold trimmed
  apply congrArg String.mk
  show (((spacedHexChars (b :: bytes) ++ [' ']).dropWhile Char.isWhitespace).reverse.dropWhile
    Char.isWhitespace).reverse = spacedHexChars (b :: bytes)
  have hdrop : (spacedHexChars (b :: bytes) ++ [' ']).dropWhile Char.isWhitespace
      = spacedHexChars (b :: bytes) ++ [' '] := by
    rw [h1, List.cons_append, List.dropWhile_cons, hf]
    rfl
  rw [hdrop, List.reverse_append, List.reverse_singleton, List.singleton_append,
    List.dropWhile_cons, if_pos (by decide)]
  conv_lhs => rw [h2]
  rw [List.reverse_append, List.reverse_singleton, List.singleton_append,
    List.dropWhile_cons, hl]
  simp only [Bool.false_eq_true, if_false, List.reverse_cons, List.reverse_reverse]
  exact h2.symm

theorem length_spacedHexChars (bytes : List Nat) :
    ∀ b : Nat, (spacedHexChars (b :: bytes)).length = 3 * (bytes.length + 1) - 1 := by
  induction bytes with
  | nil => intro b; rfl
  | cons next rest ih =>
    intro b
    show (hexPair b ++ ' ' :: spacedHexChars (next :: rest)).length = _
    rw [List.length_append, List.length_cons, ih next]
    simp only [hexPair, List.length_cons, List.length_nil]
    omega

theorem chars_spacedHexChars (bytes : List Nat) :
    (∀ x ∈ bytes, x < 256) →
      ∀ ch ∈ spacedHexChars bytes, ch = ' ' ∨ ch ∈ "0123456789ABCDEF".data := by
  induction bytes with
  | nil => intro _ ch hch; simp [spacedHexChars] at hch
  | cons b rest ih =>
    intro h ch hch
    have hb : b < 256 := h b (by simp)
    have hpair : ∀ d ∈ hexPair b, d ∈ "0123456789ABCDEF".data := by
      intro d hd
      simp only [hexPair, List.mem_cons, List.mem_singleton, List.not_mem_nil, or_false] at hd
      rcases hd with rfl | rfl
      · exact (hexDigitUpper_table (b / 16) (by omega)).2
      · exact (hexDigitUpper_table (b % 16) (by omega)).2
    cases rest with
    | nil => exact Or.inr (hpair ch hch)
    | cons next rest2 =>
      have hch2 : ch ∈ hexPair b ++ ' ' :: spacedHexChars (next :: rest2) := hch
      rcases List.mem_append.mp hch2 with h1 | h1
      · exact Or.inr (hpair ch h1)
      · rcases List.mem_cons.mp h1 with h2 | h2
        · exact Or.inl h2
        · exact ih (fun x hx => h x (List.mem_cons_of_mem _ hx)) ch h2

/-- The text `toHexSpaced` returns, for a byte array. -/
theorem toHexSpaced_eq (bytes : List Nat) (h : ∀ x ∈ bytes, x < 256) :
    toHexSpaced bytes = String.mk (spacedHexChars bytes) := by
  cases bytes with
  | nil => decide
  | cons b rest =>
    unfold toHexSpaced
    rw [foldl_hexField rest b "" h, String.empty_append, trimmed_spacedHexChars rest b h]
/-- C17: for every byte array of `n` octets, `toHexSpaced` returns the bytes in
order, each as exactly two hexadecimal digits (high nibble first, padded with
`0`, digits from `0`-`9` and `A`-`F` only), separated by single spaces, with no
space before the first or after the last; the length is `3n - 1` for `n ≥ 1`
and `0` for `n = 0`. With the response view in place, `appendTx` appends the
line `TX: ` followed by that text, and `appendRx` the line `RX: ` followed by
that text, and by `    // ` and the note when the note is not empty. -/
theorem toHexSpaced_format (bytes : List Nat) (hbytes : ∀ b ∈ bytes, b < 256) :
    toHexSpaced bytes = String.mk (spacedHexChars bytes)
      ∧ (toHexSpaced bytes).length = 3 * bytes.length - 1
      ∧ (∀ ch ∈ (toHexSpaced bytes).data, ch = ' ' ∨ ch ∈ "0123456789ABCDEF".data)
      ∧ (∀ b ∈ bytes, (hexPair b).map hexVal = [some (b / 16), some (b % 16)])
      ∧ ∀ (s : MainWindow) (ls : List String), s.rxView = some ls →
          (appendTx s bytes).rxView = some (ls ++ ["TX: " ++ toHexSpaced bytes])
            ∧ (appendRx s bytes "").rxView = some (ls ++ ["RX: " ++ toHexSpaced bytes])
            ∧ ∀ note : String, note ≠ "" →
                (appendRx s bytes note).rxView
                  = some (ls ++ ["RX: " ++ toHexSpaced bytes ++ "    // " ++ note]) := by
  have heq := toHexSpaced_eq bytes hbytes
  refine ⟨heq, ?_, ?_, fun b hb => (hexField_table b (hbytes b hb)).2, ?_⟩
  · rw [heq]
    show (spacedHexChars bytes).length = _
    cases bytes with
    | nil => rfl
    | cons b rest => exact length_spacedHexChars rest b
  · rw [heq]
    exact chars_spacedHexChars bytes hbytes
  · intro s ls hview
    refine ⟨?_, ?_, fun note hnote => ?_⟩
    · unfold appendTx
      rw [rxView_appendPlainText, hview]
      rfl
    · unfold appendRx
      rw [if_pos (by decide), rxView_appendPlainText, hview]
      rfl
    · have hne : ¬ note.isEmpty = true := fun h => hnote ((String.isEmpty_iff _).mp h)
      unfold appendRx
      rw [if_neg hne, rxView_appendPlainText, hview]
      rfl

/-- Instance of C17: the power inquiry `81 09 04 00 FF` is rendered as
`81 09 04 00 FF`, 14 characters, and logged as `TX: 81 09 04 00 FF`. -/
theorem toHexSpaced_format_witness :
    toHexSpaced [0x81, 0x09, 0x04, 0x00, 0xFF] = "81 09 04 00 FF"
      ∧ (toHexSpaced [0x81, 0x09, 0x04, 0x00, 0xFF]).length = 14
      ∧ (appendTx {} [0x81, 0x09, 0x04, 0x00, 0xFF]).rxView = some ["TX: 81 09 04 00 FF"]
      ∧ (appendRx {} [0x0A, 0xBC] "").rxView = some ["RX: 0A BC"] :=
  ⟨(toHexSpaced_format [0x81, 0x09, 0x04, 0x00, 0xFF] (by decide)).1.trans (by decide),
    (toHexSpaced_format [0x81, 0x09, 0x04, 0x00, 0xFF] (by decide)).2.1,
    ((toHexSpaced_format [0x81, 0x09, 0x04, 0x00, 0xFF] (by decide)).2.2.2.2 {} [] rfl).1.trans
      (by decide),
    ((toHexSpaced_format [0x0A, 0xBC] (by decide)).2.2.2.2 {} [] rfl).2.1.trans (by decide)⟩

/-! ## The guard on the open port -/

/-- Apart from `connectOrDisconnect`, the function an intent names does nothing,
or is one `sendVisca`, or one `sendVisca` followed by `setPowerUi`. -/
theorem perform_shape (s : MainWindow) (i : Intent)
    (hi : ∀ openOk, i ≠ Intent.connectOrDisconnect openOk) :
    perform s i = s
      ∨ ∃ cmd, perform s i = sendVisca s cmd
          ∨ ∃ p, perform s i = setPowerUi (sendVisca s cmd) p := by
  cases i with
  | powerInquiry => exact Or.inr ⟨_, Or.inl rfl⟩
  | powerOn => exact Or.inr ⟨_, Or.inl rfl⟩
  | powerOff => exact Or.inr ⟨_, Or.inl rfl⟩
  | powerToggle confirm =>
    simp only [perform, powerToggle, viscaPowerOn, viscaPowerOff]
    cases s.serial.isOpen <;> cases containsCaseInsensitive s.powerButton "Off" <;>
      cases confirm <;>
      simp only [Bool.not_true, Bool.not_false, Bool.false_eq_true, if_true, if_false] <;>
      first
        | exact Or.inl rfl
        | exact Or.inl trivial
        | exact Or.inr ⟨_, Or.inl rfl⟩
        | exact Or.inr ⟨_, Or.inr ⟨_, rfl⟩⟩
  | ptzPressed dx dy =>
    simp only [perform, ptzPressed]
    split_ifs <;>
      first
        | exact Or.inl rfl
        | exact Or.inl trivial
        | exact Or.inr ⟨_, Or.inl rfl⟩
  | ptzReleased =>
    simp only [perform, ptzReleased]
    split_ifs <;>
      first
        | exact Or.inl rfl
        | exact Or.inl trivial
        | exact Or.inr ⟨_, Or.inl rfl⟩
  | zoomInPressed =>
    simp only [perform, zoomInPressed]
    split_ifs <;>
      first
        | exact Or.inl rfl
        | exact Or.inl trivial
        | exact Or.inr ⟨_, Or.inl rfl⟩
  | zoomOutPressed =>
    simp only [perform, zoomOutPressed]
    split_ifs <;>
      first
        | exact Or.inl rfl
        | exact Or.inl trivial
        | exact Or.inr ⟨_, Or.inl rfl⟩
  | zoomReleased =>
    simp only [perform, zoomReleased]
    split_ifs <;>
      first
        | exact Or.inl rfl
        | exact Or.inl trivial
        | exact Or.inr ⟨_, Or.inl rfl⟩
  | recallPreset n =>
    simp only [perform, sendRecallPreset]
    split_ifs <;>
      first
        | exact Or.inl rfl
        | exact Or.inl trivial
        | exact Or.inr ⟨_, Or.inl rfl⟩
  | storePreset n =>
    simp only [perform, sendStorePreset]
    split_ifs <;>
      first
        | exact Or.inl rfl
        | exact Or.inl trivial
        | exact Or.inr ⟨_, Or.inl rfl⟩
  | refocus =>
    simp only [perform, sendRefocus]
    split_ifs <;>
      first
        | exact Or.inl rfl
        | exact Or.inl trivial
        | exact Or.inr ⟨_, Or.inl rfl⟩
  | execSelectedCommand =>
    simp only [perform, execSelectedCommand]
    split_ifs <;>
      first
        | exact Or.inl rfl
        | exact Or.inl trivial
        | exact Or.inr ⟨_, Or.inl rfl⟩
  | connectOrDisconnect openOk => exact absurd rfl (hi openOk)

/-- On a closed port none of these intents changes anything. -/
theorem perform_closed (s : MainWindow) (i : Intent) (hclosed : s.serial.isOpen = false)
    (hi : ∀ openOk, i ≠ Intent.connectOrDisconnect openOk) : perform s i = s := by
  cases i with
  | connectOrDisconnect openOk => exact absurd rfl (hi openOk)
  | powerInquiry => exact sendVisca_closed s _ hclosed
  | powerOn => exact sendVisca_closed s _ hclosed
  | powerOff => exact sendVisca_closed s _ hclosed
  | recallPreset n =>
    simp only [perform, sendRecallPreset]
    split_ifs
    · rfl
    · exact sendVisca_closed s _ hclosed
  | storePreset n =>
    simp only [perform, sendStorePreset]
    split_ifs
    · rfl
    · exact sendVisca_closed s _ hclosed
  | powerToggle confirm => simp [perform, powerToggle, hclosed]
  | ptzPressed dx dy => simp [perform, ptzPressed, hclosed]
  | ptzReleased => simp [perform, ptzReleased, hclosed]
  | zoomInPressed => simp [perform, zoomInPressed, hclosed]
  | zoomOutPressed => simp [perform, zoomOutPressed, hclosed]
  | zoomReleased => simp [perform, zoomReleased, hclosed]
  | refocus => simp [perform, sendRefocus, hclosed]
  | execSelectedCommand => simp [perform, execSelectedCommand, hclosed]

theorem rxView_sendVisca (s : MainWindow) (bytes : List Nat) (ls : List String)
    (hopen : s.serial.isOpen = true) (hview : s.rxView = some ls) :
    (sendVisca s bytes).rxView = some (ls ++ ["TX: " ++ toHexSpaced bytes]) := by
  unfold sendVisca appendTx
  simp only [hopen, Bool.not_true, Bool.false_eq_true, if_false]
  show (appendPlainText s ("TX: " ++ toHexSpaced bytes)).rxView = _
  rw [rxView_appendPlainText, hview]
  rfl

/-- On an open port, with the response view in place, the lines these intents
add to the view are the lines `TX: ...` of the byte arrays they write. -/
theorem rxView_perform (s : MainWindow) (i : Intent) (ls : List String)
    (hopen : s.serial.isOpen = true) (hview : s.rxView = some ls)
    (hi : ∀ openOk, i ≠ Intent.connectOrDisconnect openOk) :
    (perform s i).rxView
      = some (ls ++ (emitted s i).map (fun cmd => "TX: " ++ toHexSpaced cmd)) := by
  unfold emitted
  rcases perform_shape s i hi with h | ⟨cmd, h | ⟨p, h⟩⟩
  · rw [h, List.drop_length, hview]
    simp
  · rw [h, written_sendVisca s cmd hopen, List.drop_left, rxView_sendVisca s cmd ls hopen hview]
    rfl
  · rw [h, serial_setPowerUi, rxView_setPowerUi, written_sendVisca s cmd hopen, List.drop_left,
      rxView_sendVisca s cmd ls hopen hview]
    rfl

/-- C21: while the port is not open, every operator intent (pan/tilt press
and release, zoom press and release, refocus, power toggle, preset recall and
store, also through the preset list, power inquiry, custom command) leaves the
whole state as it is: no byte is written, no line is added to the log, and the
power state and the receive buffer are unchanged. While the port is open and
the response view is in place, every `sendVisca` writes its bytes and appends
exactly one line, `TX: ` followed by exactly those bytes in hexadecimal, and the
lines each of these intents adds are the ones of the byte arrays it writes. -/
theorem sendVisca_guard (s : MainWindow) :
    (s.serial.isOpen = false →
        (∀ i : Intent, (∀ openOk, i ≠ Intent.connectOrDisconnect openOk) →
            perform s i = s ∧ emitted s i = [])
          ∧ (∀ row, onPresetDoubleClicked s row = s)
          ∧ (∀ row chosen, renamePresetRequested s row chosen = s)
          ∧ ∀ bytes, sendVisca s bytes = s)
      ∧ (s.serial.isOpen = true → ∀ ls : List String, s.rxView = some ls →
          (∀ bytes, (sendVisca s bytes).serial.written = s.serial.written ++ [bytes]
              ∧ (sendVisca s bytes).rxView = some (ls ++ ["TX: " ++ toHexSpaced bytes])
              ∧ (sendVisca s bytes).powerState = s.powerState
              ∧ (sendVisca s bytes).rxBuf = s.rxBuf)
            ∧ ∀ i : Intent, (∀ openOk, i ≠ Intent.connectOrDisconnect openOk) →
                (perform s i).rxView
                  = some (ls ++ (emitted s i).map (fun cmd => "TX: " ++ toHexSpaced cmd))) := by
  refine ⟨fun hclosed => ⟨fun i hi => ?_, fun row => ?_, fun row chosen => ?_,
    fun bytes => sendVisca_closed s bytes hclosed⟩, fun hopen ls hview => ⟨fun bytes => ?_,
    fun i hi => rxView_perform s i ls hopen hview hi⟩⟩
  · have h := perform_closed s i hclosed hi
    refine ⟨h, ?_⟩
    unfold emitted
    rw [h, List.drop_length]
  · unfold onPresetDoubleClicked
    simp [hclosed]
  · unfold renamePresetRequested
    cases row <;> cases chosen <;> simp [hclosed]
  · exact ⟨written_sendVisca s bytes hopen, rxView_sendVisca s bytes ls hopen hview,
      (fields_sendVisca s bytes).1, (fields_sendVisca s bytes).2.2.2⟩

/-- Instance of C21: before any connect a press of "right" and a double click
on preset 2 change nothing; on an open port the refocus command is written and
logged as one line. -/
theorem sendVisca_guard_witness :
    (perform {} (Intent.ptzPressed 1 0) = {} ∧ emitted {} (Intent.ptzPressed 1 0) = [])
      ∧ onPresetDoubleClicked {} (some 2) = {}
      ∧ (perform { serial := { isOpen := true } } Intent.refocus).rxView
          = some ["TX: 81 01 04 18 01 FF"]
      ∧ emitted { serial := { isOpen := true } } Intent.refocus
          = [[0x81, 0x01, 0x04, 0x18, 0x01, 0xFF]] :=
  ⟨((sendVisca_guard {}).1 rfl).1 (Intent.ptzPressed 1 0) (fun _ h => Intent.noConfusion h),
    ((sendVisca_guard {}).1 rfl).2.1 (some 2),
    (((sendVisca_guard { serial := { isOpen := true } }).2 rfl [] rfl).2 Intent.refocus
      (fun _ h => Intent.noConfusion h)).trans (by decide),
    by decide⟩

/-! ## Requested speeds outside the slider ranges -/

end SimplePTZ
